import Mathlib

/-!
# Ray tracing of spheres (`project6.js`, the GLSL fragment shader `raytraceFS`)

A shallow embedding of the three shader procedures `Shade`, `IntersectRay` and
`RayTracer`, and the properties of them that the specification states.

GLSL `float` is read as an exact scalar: the development is generic in a linearly
ordered field `α` that carries the two transcendental built-ins the shader uses,
`sqrt` and `pow`.  All definitions are computable in the operations of `α`; the
real numbers are an instance.
-/

set_option autoImplicit false
set_option linter.unusedSectionVars false

namespace RayTracingSpheres

/-- The scalar built-ins of GLSL used by the shader, over an ordered field. -/
class GLScalar (α : Type) [LinearOrderedField α] where
  /-- GLSL `sqrt` -/
  sqrt : α → α
  /-- GLSL `pow` -/
  pow : α → α → α
  sqrt_nonneg : ∀ x : α, 0 ≤ sqrt x
  mul_self_sqrt : ∀ x : α, 0 ≤ x → sqrt x * sqrt x = x
  pow_nonneg : ∀ x y : α, 0 ≤ x → 0 ≤ pow x y

noncomputable instance instGLScalarReal : GLScalar ℝ where
  sqrt := Real.sqrt
  pow := fun x y => x ^ y
  sqrt_nonneg := Real.sqrt_nonneg
  mul_self_sqrt := fun _ hx => Real.mul_self_sqrt hx
  pow_nonneg := fun _ y hx => Real.rpow_nonneg hx y

/-- GLSL `vec3`. -/
@[ext]
structure Vec3 (α : Type) where
  x : α
  y : α
  z : α
deriving DecidableEq

/-- GLSL `vec4`, as returned by `RayTracer`: a colour and an alpha. -/
@[ext]
structure Vec4 (α : Type) where
  rgb : Vec3 α
  a : α

section Defs

variable {α : Type} [LinearOrderedField α] [GLScalar α]

namespace Vec3

/-- The vector `vec3(0,0,0)`. -/
def zero : Vec3 α := ⟨0, 0, 0⟩

/-- Component-wise `u + v`. -/
def add (u v : Vec3 α) : Vec3 α := ⟨u.x + v.x, u.y + v.y, u.z + v.z⟩

/-- Component-wise `u - v`. -/
def sub (u v : Vec3 α) : Vec3 α := ⟨u.x - v.x, u.y - v.y, u.z - v.z⟩

/-- Unary minus `-v`. -/
def neg (v : Vec3 α) : Vec3 α := ⟨-v.x, -v.y, -v.z⟩

/-- Component-wise product `u * v` of two `vec3`. -/
def mul (u v : Vec3 α) : Vec3 α := ⟨u.x * v.x, u.y * v.y, u.z * v.z⟩

/-- Scalar times vector, `k * v`. -/
def smul (k : α) (v : Vec3 α) : Vec3 α := ⟨k * v.x, k * v.y, k * v.z⟩

/-- GLSL `dot`. -/
def dot (u v : Vec3 α) : α := u.x * v.x + u.y * v.y + u.z * v.z

/-- GLSL `length`. -/
def length (v : Vec3 α) : α := GLScalar.sqrt (dot v v)

/-- GLSL `normalize`: every component divided by the length.  At the vector `(0,0,0)` the
shader divides `0` by `0` and its result is undefined; the value `(0,0,0)` that total
division gives there stands for no result of the shader, and `lightTermChecked` and
`ShadeChecked` carry the domain. -/
def normalize (v : Vec3 α) : Vec3 α := ⟨v.x / length v, v.y / length v, v.z / length v⟩

/-- The swizzle `v.xzy`. -/
def xzy (v : Vec3 α) : Vec3 α := ⟨v.x, v.z, v.y⟩

end Vec3

/-- The record `struct Ray`. -/
structure Ray (α : Type) where
  pos : Vec3 α
  dir : Vec3 α

/-- The record `struct Material`. -/
@[ext]
structure Material (α : Type) where
  k_d : Vec3 α
  k_s : Vec3 α
  n : α

/-- The record `struct Sphere`. -/
structure Sphere (α : Type) where
  center : Vec3 α
  radius : α
  mtl : Material α

/-- The record `struct Light`. -/
structure Light (α : Type) where
  position : Vec3 α
  intensity : Vec3 α

/-- The record `struct HitInfo`. -/
@[ext]
structure HitInfo (α : Type) where
  t : α
  position : Vec3 α
  normal : Vec3 α
  mtl : Material α

/-- The uniforms of the shader and the two compile-time constants it is built with.
`NUM_SPHERES` and `NUM_LIGHTS` are the lengths of the two arrays; `MAX_BOUNCES` is the
constant bound of the reflection loop, which counts up from `0`; `envMap d` stands for
`textureCube( envMap, d ).rgb`. -/
structure Scene (α : Type) where
  spheres : List (Sphere α)
  lights : List (Light α)
  envMap : Vec3 α → Vec3 α
  bounceLimit : Int
  MAX_BOUNCES : Nat

/-- A local `HitInfo hit;` declared without initialiser.  `IntersectRay` overwrites every
field when it reports a hit, and no caller reads the record otherwise. -/
def HitInfo.uninit : HitInfo α :=
  ⟨0, Vec3.zero, Vec3.zero, ⟨Vec3.zero, Vec3.zero, 0⟩⟩

/-- The literal `1e30`. -/
def huge : α := 10 ^ 30

/-- Coefficient `a = dot(ray.dir, ray.dir)` of the ray-sphere quadratic. -/
def quadA (ray : Ray α) : α := Vec3.dot ray.dir ray.dir

/-- Coefficient `b = dot(2 * ray.dir, ray.pos - sphere.center)`. -/
def quadB (ray : Ray α) (sphere : Sphere α) : α :=
  Vec3.dot (Vec3.smul 2 ray.dir) (Vec3.sub ray.pos sphere.center)

/-- Coefficient `c = dot(p - c, p - c) - radius * radius`. -/
def quadC (ray : Ray α) (sphere : Sphere α) : α :=
  Vec3.dot (Vec3.sub ray.pos sphere.center) (Vec3.sub ray.pos sphere.center)
    - sphere.radius * sphere.radius

/-- The discriminant `delta = b * b - 4 * a * c`. -/
def delta (ray : Ray α) (sphere : Sphere α) : α :=
  quadB ray sphere * quadB ray sphere - 4 * quadA ray * quadC ray sphere

/-- The near root `t = (-1 * b - sqrt(delta)) / (2 * a)`. -/
def nearRoot (ray : Ray α) (sphere : Sphere α) : α :=
  ((-1) * quadB ray sphere - GLScalar.sqrt (delta ray sphere)) / (2 * quadA ray)

/-- The record written into `hit` when the candidate of `sphere` is accepted. -/
def hitOf (ray : Ray α) (sphere : Sphere α) : HitInfo α :=
  let t := nearRoot ray sphere
  let position := Vec3.add ray.pos (Vec3.smul t ray.dir)
  ⟨t, position, Vec3.normalize (Vec3.sub position sphere.center), sphere.mtl⟩

/-- One iteration of the loop of `IntersectRay`, on the pair `(foundHit, hit)`. -/
def intersectStep (ray : Ray α) (st : Bool × HitInfo α) (sphere : Sphere α) :
    Bool × HitInfo α :=
  if 0 ≤ delta ray sphere then
    if nearRoot ray sphere < st.2.t ∧ 0 < nearRoot ray sphere then
      (true, hitOf ray sphere)
    else st
  else st

/-- The procedure `bool IntersectRay( inout HitInfo hit, Ray ray )`: the returned flag and the final
value of the `inout` parameter. -/
def IntersectRay (spheres : List (Sphere α)) (hit : HitInfo α) (ray : Ray α) :
    Bool × HitInfo α :=
  spheres.foldl (intersectStep ray) (false, { hit with t := huge })

/-- Vector times scalar, `v * k`. -/
def Vec3.muls (v : Vec3 α) (k : α) : Vec3 α := ⟨v.x * k, v.y * k, v.z * k⟩

/-- The term `lights[i].intensity * (diffuseTerm + specularTerm)` that `Shade` adds for a
light that is not shadowed; `norm` and `viewDir` are the normalised normal and view. -/
def lightTerm (mtl : Material α) (position norm viewDir : Vec3 α) (light : Light α) :
    Vec3 α :=
  let lightDir := Vec3.normalize (Vec3.sub light.position position)
  let halfV : Vec3 α := ⟨lightDir.x + viewDir.x, lightDir.y + viewDir.y, lightDir.z + viewDir.z⟩
  let halfVect := Vec3.normalize halfV
  let geoTerm := max 0 (Vec3.dot norm lightDir)
  let cosPhi := max 0 (Vec3.dot norm halfVect)
  let diffuseTerm := Vec3.smul geoTerm mtl.k_d
  let specularTerm := Vec3.muls mtl.k_s (GLScalar.pow cosPhi mtl.n)
  Vec3.mul light.intensity (Vec3.add diffuseTerm specularTerm)

/-- The shadow ray of `Shade` for one light. -/
def shadowRay (position : Vec3 α) (light : Light α) : Ray α :=
  ⟨position, Vec3.sub light.position position⟩

/-- The value `lightT` of `Shade`. -/
def lightT (position : Vec3 α) (light : Light α) : α :=
  (light.position.x - (shadowRay position light).pos.x) / (shadowRay position light).dir.x

/-- The literal `0.0000001` (`bias`). -/
def bias : α := 1 / 10 ^ 7

/-- One iteration of the loop of `Shade` over the lights, on the accumulator `color`. -/
def shadeStep (spheres : List (Sphere α)) (mtl : Material α)
    (position norm viewDir : Vec3 α) (color : Vec3 α) (light : Light α) : Vec3 α :=
  let r := IntersectRay spheres HitInfo.uninit (shadowRay position light)
  if r.1 then
    if bias < r.2.t ∧ r.2.t < lightT position light then
      color
    else
      Vec3.add color (lightTerm mtl position norm viewDir light)
  else
    Vec3.add color (lightTerm mtl position norm viewDir light)

/-- The procedure `vec3 Shade( Material mtl, vec3 position, vec3 normal, vec3 view )`. -/
def Shade (sc : Scene α) (mtl : Material α) (position normal view : Vec3 α) : Vec3 α :=
  sc.lights.foldl
    (shadeStep sc.spheres mtl position (Vec3.normalize normal) (Vec3.normalize view))
    Vec3.zero

/-- The variables of the reflection loop of `RayTracer`, together with `casts`, the number
of reflection rays handed to `IntersectRay` so far. -/
structure BounceState (α : Type) where
  view : Vec3 α
  norm : Vec3 α
  poss : Vec3 α
  k_s : Vec3 α
  clr : Vec3 α
  casts : Nat

/-- The reflection ray `r` built from the loop variables. -/
def reflectionRay (st : BounceState α) : Ray α :=
  ⟨st.poss, Vec3.sub (Vec3.smul (2 * Vec3.dot st.view st.norm) st.norm) st.view⟩

/-- The loop `for ( int bounce=0; bounce<MAX_BOUNCES; ++bounce )` of `RayTracer`, entered
with `remaining = MAX_BOUNCES - bounce`; `hit` is the primary hit. -/
def bounceLoop (sc : Scene α) (hit : HitInfo α) :
    Nat → Nat → BounceState α → BounceState α
  | 0, _, st => st
  | remaining + 1, bounce, st =>
    if sc.bounceLimit ≤ (bounce : Int) then st
    else if hit.mtl.k_s.x + hit.mtl.k_s.y + hit.mtl.k_s.z ≤ 0 then st
    else
      let r := reflectionRay st
      let h := IntersectRay sc.spheres HitInfo.uninit r
      if h.1 then
        bounceLoop sc hit remaining (bounce + 1)
          { view := Vec3.neg r.dir
            norm := h.2.normal
            poss := h.2.position
            k_s := Vec3.mul st.k_s h.2.mtl.k_s
            clr := Vec3.add st.clr
              (Vec3.mul (Shade sc h.2.mtl h.2.position h.2.normal (Vec3.neg r.dir)) st.k_s)
            casts := st.casts + 1 }
      else
        { st with
          clr := Vec3.add st.clr (Vec3.mul st.k_s (sc.envMap (Vec3.xzy r.dir)))
          casts := st.casts + 1 }

/-- The loop variables of `RayTracer` on entry to the reflection loop. -/
def primaryState (sc : Scene α) (ray : Ray α) (hit : HitInfo α) : BounceState α :=
  let view := Vec3.normalize (Vec3.neg ray.dir)
  { view := view
    norm := hit.normal
    poss := hit.position
    k_s := hit.mtl.k_s
    clr := Shade sc hit.mtl hit.position hit.normal view
    casts := 0 }

/-- The loop variables of `RayTracer` when the reflection loop is left, for a primary
hit `hit`. -/
def finalState (sc : Scene α) (ray : Ray α) (hit : HitInfo α) : BounceState α :=
  bounceLoop sc hit sc.MAX_BOUNCES 0 (primaryState sc ray hit)

/-- The procedure `vec4 RayTracer( Ray ray )`. -/
def RayTracer (sc : Scene α) (ray : Ray α) : Vec4 α :=
  let r := IntersectRay sc.spheres HitInfo.uninit ray
  if r.1 then
    ⟨(finalState sc ray r.2).clr, 1⟩
  else
    ⟨sc.envMap (Vec3.xzy ray.dir), 0⟩

/-- The number of reflection rays `RayTracer` casts for `ray`. -/
def reflectionRaysCast (sc : Scene α) (ray : Ray α) : Nat :=
  let r := IntersectRay sc.spheres HitInfo.uninit ray
  if r.1 then (finalState sc ray r.2).casts else 0

/-- A sphere improves on the running best `best` when its discriminant is non-negative
and its near root is positive and below `best`. -/
def Improves (ray : Ray α) (best : α) (sphere : Sphere α) : Prop :=
  0 ≤ delta ray sphere ∧ 0 < nearRoot ray sphere ∧ nearRoot ray sphere < best

/-- A sphere yields an accepted candidate for `ray`: its discriminant is non-negative and
its near root lies strictly between `0` and `1e30`. -/
def Accepted (ray : Ray α) (sphere : Sphere α) : Prop :=
  0 ≤ delta ray sphere ∧ 0 < nearRoot ray sphere ∧ nearRoot ray sphere < huge

instance (ray : Ray α) (sphere : Sphere α) : Decidable (Accepted ray sphere) := by
  unfold Accepted; infer_instance

/-- The unit sphere material of the examples: white diffuse, no specular. -/
def exMtl : Material α := ⟨⟨1, 1, 1⟩, ⟨0, 0, 0⟩, 1⟩

/-- The sphere of the concrete scenario: centre `(0,0,-5)`, radius `1`. -/
def exSphere : Sphere α := ⟨⟨0, 0, -5⟩, 1, exMtl⟩

/-- The camera ray of the concrete scenario: origin `(0,0,0)`, direction `(0,0,-1)`. -/
def exRay : Ray α := ⟨⟨0, 0, 0⟩, ⟨0, 0, -1⟩⟩

/-- The scalar `t` is a real root of the ray-sphere quadratic `a t^2 + b t + c = 0`. -/
def IsRoot (ray : Ray α) (sphere : Sphere α) (t : α) : Prop :=
  quadA ray * t * t + quadB ray sphere * t + quadC ray sphere = 0

/-- A ray of the examples that starts at the centre of `exSphere`. -/
def exInsideRay : Ray α := ⟨⟨0, 0, -5⟩, ⟨0, 0, -1⟩⟩

/-- A scene without spheres and lights whose environment map returns the direction it is
sampled in. -/
def exEmptyScene : Scene α := ⟨[], [], fun d => d, 0, 0⟩

/-- A ray of the examples in direction `(0,1,0)`. -/
def exUpRay : Ray α := ⟨⟨0, 0, 0⟩, ⟨0, 1, 0⟩⟩

/-- The scene of the concrete scenario without lights, with the given bounce limit and
`MAX_BOUNCES`. -/
def exScene (bounceLimit : Int) (maxBounces : Nat) : Scene α :=
  ⟨[exSphere], [], fun d => d, bounceLimit, maxBounces⟩

/-- A mirror sphere of the examples: centre `(0,0,-5)`, radius `1`, specular `(1,1,1)`. -/
def exMirror : Sphere α := ⟨⟨0, 0, -5⟩, 1, ⟨⟨1, 1, 1⟩, ⟨1, 1, 1⟩, 1⟩⟩

/-- A diffuse sphere of the examples: centre `(0,0,5)`, radius `1`, specular `(0,0,0)`. -/
def exDiffuse : Sphere α := ⟨⟨0, 0, 5⟩, 1, exMtl⟩

/-- The mirror sphere facing the diffuse sphere, no lights, `bounceLimit = 2` and
`MAX_BOUNCES = 2`. -/
def exTwoScene : Scene α := ⟨[exMirror, exDiffuse], [], fun d => d, 2, 2⟩

/-- The loop variables of `RayTracer` on `exTwoScene` and `exRay` on entry to the
reflection loop. -/
def exState0 : BounceState α :=
  ⟨⟨0, 0, 1⟩, ⟨0, 0, 1⟩, ⟨0, 0, -4⟩, ⟨1, 1, 1⟩, ⟨0, 0, 0⟩, 0⟩

/-- The loop variables of `RayTracer` on `exTwoScene` and `exRay` at the head of the
second iteration of the reflection loop. -/
def exState1 : BounceState α :=
  ⟨⟨0, 0, -1⟩, ⟨0, 0, -1⟩, ⟨0, 0, 4⟩, ⟨0, 0, 0⟩, ⟨0, 0, 0⟩, 1⟩

/-- The first reflection ray of `RayTracer` on `exTwoScene` and `exRay`. -/
def exReflect : Ray α := ⟨⟨0, 0, -4⟩, ⟨0, 0, 1⟩⟩

/-- An occluding sphere of the examples: centre `(0,2,0)`, radius `1`. -/
def exOccluder : Sphere α := ⟨⟨0, 2, 0⟩, 1, exMtl⟩

/-- A light of the examples at `(0,4,0)` with intensity `(1,1,1)`. -/
def exLight : Light α := ⟨⟨0, 4, 0⟩, ⟨1, 1, 1⟩⟩

/-- The occluding sphere between the origin and the light. -/
def exShadowScene : Scene α := ⟨[exOccluder], [exLight], fun d => d, 0, 0⟩

/-- The sum of a list of colours. -/
def vecSum : List (Vec3 α) → Vec3 α
  | [] => Vec3.zero
  | c :: cs => Vec3.add c (vecSum cs)

/-- The contribution `c_i` of one light to the shaded colour, as the specification words
it: nothing when the shadow ray (origin `position`, direction
`light.position - position`) reports a hit with `1e-7 < hit.t < light_t`, where
`light_t = (light.position.x - position.x) / direction.x`; otherwise
`light.intensity * (max(0, dot(n, l)) * k_d + k_s * max(0, dot(n, h))^shininess)`. -/
def lightContribution (sc : Scene α) (mtl : Material α) (position normal view : Vec3 α)
    (light : Light α) : Vec3 α :=
  let direction := Vec3.sub light.position position
  let hit := IntersectRay sc.spheres HitInfo.uninit ⟨position, direction⟩
  let light_t := (light.position.x - position.x) / direction.x
  if hit.1 = true ∧ 1 / 10 ^ 7 < hit.2.t ∧ hit.2.t < light_t then
    Vec3.zero
  else
    let n := Vec3.normalize normal
    let l := Vec3.normalize (Vec3.sub light.position position)
    let h := Vec3.normalize (Vec3.add l (Vec3.normalize view))
    Vec3.mul light.intensity
      (Vec3.add (Vec3.smul (max 0 (Vec3.dot n l)) mtl.k_d)
        (Vec3.muls mtl.k_s (GLScalar.pow (max 0 (Vec3.dot n h)) mtl.n)))

/-- A light of the examples at `(1,0,0)` with intensity `(1,1,1)`. -/
def exSideLight : Light α := ⟨⟨1, 0, 0⟩, ⟨1, 1, 1⟩⟩

/-- Every channel of the colour is non-negative. -/
def Vec3.Nonneg (v : Vec3 α) : Prop := 0 ≤ v.x ∧ 0 ≤ v.y ∧ 0 ≤ v.z

/-- The occluding sphere with two copies of the light at `(0,4,0)`. -/
def exTwoLightScene : Scene α := ⟨[exOccluder], [exLight, exLight], fun d => d, 0, 0⟩

/-- The value `diffuseTerm` of `Shade` for one light; `norm` is the normalised normal. -/
def diffuseTerm (mtl : Material α) (position norm : Vec3 α) (light : Light α) : Vec3 α :=
  let lightDir := Vec3.normalize (Vec3.sub light.position position)
  let geoTerm := max 0 (Vec3.dot norm lightDir)
  Vec3.smul geoTerm mtl.k_d

/-- The value `specularTerm` of `Shade` for one light; `norm` and `viewDir` are the
normalised normal and view. -/
def specularTerm (mtl : Material α) (position norm viewDir : Vec3 α) (light : Light α) :
    Vec3 α :=
  let lightDir := Vec3.normalize (Vec3.sub light.position position)
  let halfV : Vec3 α := ⟨lightDir.x + viewDir.x, lightDir.y + viewDir.y, lightDir.z + viewDir.z⟩
  let halfVect := Vec3.normalize halfV
  let cosPhi := max 0 (Vec3.dot norm halfVect)
  Vec3.muls mtl.k_s (GLScalar.pow cosPhi mtl.n)

/-- The light of the concrete scenario: position `(0,5,-5)`, intensity `(1,1,1)`. -/
def exTopLight : Light α := ⟨⟨0, 5, -5⟩, ⟨1, 1, 1⟩⟩

/-- The purely diffuse white material of the concrete scenario, with specular exponent
`n`. -/
def exWhite (n : α) : Material α := ⟨⟨1, 1, 1⟩, ⟨0, 0, 0⟩, n⟩

/-- The concrete scenario: the sphere of centre `(0,0,-5)` and radius `1` with the purely
diffuse white material, and the light at `(0,5,-5)`. -/
def exDiffuseScene (n : α) (bounceLimit : Int) (maxBounces : Nat) : Scene α :=
  ⟨[⟨⟨0, 0, -5⟩, 1, exWhite n⟩], [exTopLight], fun d => d, bounceLimit, maxBounces⟩

/-- The reflection loop as the specification words it: the attenuation test reads the
running product `k_s`, where `bounceLoop` reads the specular coefficient of the primary
hit; everything else is as in `bounceLoop`. -/
def bounceLoopRunning (sc : Scene α) : Nat → Nat → BounceState α → BounceState α
  | 0, _, st => st
  | remaining + 1, bounce, st =>
    if sc.bounceLimit ≤ (bounce : Int) then st
    else if st.k_s.x + st.k_s.y + st.k_s.z ≤ 0 then st
    else
      let r := reflectionRay st
      let h := IntersectRay sc.spheres HitInfo.uninit r
      if h.1 then
        bounceLoopRunning sc remaining (bounce + 1)
          { view := Vec3.neg r.dir
            norm := h.2.normal
            poss := h.2.position
            k_s := Vec3.mul st.k_s h.2.mtl.k_s
            clr := Vec3.add st.clr
              (Vec3.mul (Shade sc h.2.mtl h.2.position h.2.normal (Vec3.neg r.dir)) st.k_s)
            casts := st.casts + 1 }
      else
        { st with
          clr := Vec3.add st.clr (Vec3.mul st.k_s (sc.envMap (Vec3.xzy r.dir)))
          casts := st.casts + 1 }

/-- The variant of `RayTracer` whose attenuation test reads the running product. -/
def RayTracerRunning (sc : Scene α) (ray : Ray α) : Vec4 α :=
  let r := IntersectRay sc.spheres HitInfo.uninit ray
  if r.1 then
    ⟨(bounceLoopRunning sc sc.MAX_BOUNCES 0 (primaryState sc ray r.2)).clr, 1⟩
  else
    ⟨sc.envMap (Vec3.xzy ray.dir), 0⟩

/-- The reference recurrence of the specification for the reflection chain, run for `n`
iterations from the state `st`; `sample` is `environment_sample`.  Each iteration builds
the reflection ray with origin the running position and direction
`r = 2*dot(view, normal)*normal - view`; on a hit it adds `Shade(hit2, -r) * k_s` and sets
`view = -r`, `normal`, `position` from the hit and `k_s = k_s * hit2.mtl.k_s`; on a miss it
adds `k_s * sample(r)` and stops. -/
def referenceTrace (sc : Scene α) (sample : Vec3 α → Vec3 α) :
    Nat → BounceState α → BounceState α
  | 0, st => st
  | n + 1, st =>
    let r := Vec3.sub (Vec3.smul (2 * Vec3.dot st.view st.norm) st.norm) st.view
    let hit2 := IntersectRay sc.spheres HitInfo.uninit ⟨st.poss, r⟩
    if hit2.1 then
      referenceTrace sc sample n
        { view := Vec3.neg r
          norm := hit2.2.normal
          poss := hit2.2.position
          k_s := Vec3.mul st.k_s hit2.2.mtl.k_s
          clr := Vec3.add st.clr
            (Vec3.mul (Shade sc hit2.2.mtl hit2.2.position hit2.2.normal (Vec3.neg r)) st.k_s)
          casts := st.casts + 1 }
    else
      { st with
        clr := Vec3.add st.clr (Vec3.mul st.k_s (sample r))
        casts := st.casts + 1 }

/-- The number of iterations the exit tests of the reflection loop permit at most: none
when the specular coefficient of the primary hit has a non-positive channel sum, and
`min(MAX_BOUNCES, bounceLimit)` otherwise. -/
def permittedBounces (sc : Scene α) (hit : HitInfo α) : Nat :=
  if hit.mtl.k_s.x + hit.mtl.k_s.y + hit.mtl.k_s.z ≤ 0 then 0
  else (min (sc.MAX_BOUNCES : Int) sc.bounceLimit).toNat

/-- The colour of the reference recurrence for a primary hit `hit`: it starts with
`colour = Shade(primary hit)`, `view = normalize(-ray.dir)` and `k_s` the primary
specular coefficient. -/
def referenceColour (sc : Scene α) (sample : Vec3 α → Vec3 α) (ray : Ray α)
    (hit : HitInfo α) : Vec3 α :=
  let view := Vec3.normalize (Vec3.neg ray.dir)
  (referenceTrace sc sample (permittedBounces sc hit)
    { view := view
      norm := hit.normal
      poss := hit.position
      k_s := hit.mtl.k_s
      clr := Shade sc hit.mtl hit.position hit.normal view
      casts := 0 }).clr

/-- The mirror sphere alone, no lights, an environment map that returns the direction it
is sampled in, `bounceLimit = 1` and `MAX_BOUNCES = 1`. -/
def exMirrorScene : Scene α := ⟨[exMirror], [], fun d => d, 1, 1⟩

/-- The term `lights[i].intensity * (diffuseTerm + specularTerm)` of `Shade` together with
the domain of GLSL `normalize`: the shader divides `0` by `0` when one of the four vectors
it normalises for this term (`normal`, `view`, `lights[i].position - position` and
`lightDir + viewDir`) is `(0,0,0)`, and the term is then undefined (`none`); elsewhere it
is `lightTerm` at the normalised normal and view. -/
def lightTermChecked (mtl : Material α) (position normal view : Vec3 α) (light : Light α) :
    Option (Vec3 α) :=
  if normal = Vec3.zero ∨ view = Vec3.zero ∨ Vec3.sub light.position position = Vec3.zero ∨
      Vec3.add (Vec3.normalize (Vec3.sub light.position position)) (Vec3.normalize view)
        = Vec3.zero then
    none
  else
    some (lightTerm mtl position (Vec3.normalize normal) (Vec3.normalize view) light)

/-- One iteration of the loop of `Shade` on a colour that may be undefined: a shadowed
light leaves the colour as it is, any other light adds its term, and the sum is undefined
when the colour or the term is. -/
def shadeStepChecked (spheres : List (Sphere α)) (mtl : Material α)
    (position normal view : Vec3 α) (color : Option (Vec3 α)) (light : Light α) :
    Option (Vec3 α) :=
  let r := IntersectRay spheres HitInfo.uninit (shadowRay position light)
  if r.1 then
    if bias < r.2.t ∧ r.2.t < lightT position light then
      color
    else
      color.bind fun c => (lightTermChecked mtl position normal view light).map (Vec3.add c)
  else
    color.bind fun c => (lightTermChecked mtl position normal view light).map (Vec3.add c)

/-- The procedure `Shade` together with the domain of GLSL `normalize`: `none` when a term
that is added is undefined, and the colour otherwise. -/
def ShadeChecked (sc : Scene α) (mtl : Material α) (position normal view : Vec3 α) :
    Option (Vec3 α) :=
  sc.lights.foldl (shadeStepChecked sc.spheres mtl position normal view) (some Vec3.zero)

end Defs

end RayTracingSpheres

namespace RayTracingSpheres

section Intersect

variable {α : Type} [LinearOrderedField α] [GLScalar α]

theorem hitOf_t (ray : Ray α) (s : Sphere α) : (hitOf ray s).t = nearRoot ray s := rfl

theorem intersectStep_cases (ray : Ray α) (st : Bool × HitInfo α) (s : Sphere α) :
    (intersectStep ray st s = st ∧ ¬ Improves ray st.2.t s) ∨
    (intersectStep ray st s = (true, hitOf ray s) ∧ Improves ray st.2.t s) := by
  unfold intersectStep Improves
  by_cases hd : 0 ≤ delta ray s
  · by_cases ht : nearRoot ray s < st.2.t ∧ 0 < nearRoot ray s
    · right
      simp only [hd, ht, and_self, if_true, true_and]
    · left
      simp only [hd, ht, if_true, if_false, true_and]
      exact fun h => ht ⟨h.2, h.1⟩
  · left
    simp only [hd, if_false, false_and, not_false_eq_true, and_self]

/-- The scan of `IntersectRay` from an arbitrary loop state: either no sphere improves on
the running best and the state is unchanged, or the final state is the record of a sphere
that improves on it; in both cases the final `t` is a lower bound of every positive near
root with non-negative discriminant, and of the running best. -/
theorem foldl_intersectStep (ray : Ray α) (l : List (Sphere α)) (st : Bool × HitInfo α) :
    ((l.foldl (intersectStep ray) st = st ∧ ∀ s ∈ l, ¬ Improves ray st.2.t s) ∨
      (∃ s ∈ l, Improves ray st.2.t s ∧
        l.foldl (intersectStep ray) st = (true, hitOf ray s))) ∧
    (l.foldl (intersectStep ray) st).2.t ≤ st.2.t ∧
    (∀ s ∈ l, 0 ≤ delta ray s → 0 < nearRoot ray s →
      (l.foldl (intersectStep ray) st).2.t ≤ nearRoot ray s) := by
  induction l generalizing st with
  | nil =>
    refine ⟨Or.inl ⟨rfl, ?_⟩, le_refl _, ?_⟩
    · intro s hs; cases hs
    · intro s hs; cases hs
  | cons a l ih =>
    rw [List.foldl_cons]
    obtain ⟨ih1, ih2, ih3⟩ := ih (intersectStep ray st a)
    rcases intersectStep_cases ray st a with ⟨hst, hno⟩ | ⟨hst, himp⟩
    · rw [hst] at ih1 ih2 ih3 ⊢
      refine ⟨?_, ih2, ?_⟩
      · rcases ih1 with ⟨he, hall⟩ | ⟨s, hs, hi, he⟩
        · left
          refine ⟨he, ?_⟩
          intro s hs
          rcases List.mem_cons.1 hs with rfl | hs
          · exact hno
          · exact hall s hs
        · right
          exact ⟨s, List.mem_cons_of_mem _ hs, hi, he⟩
      · intro s hs hd hp
        rcases List.mem_cons.1 hs with rfl | hs
        · by_contra hlt
          exact hno ⟨hd, hp, lt_of_lt_of_le (not_le.1 hlt) ih2⟩
        · exact ih3 s hs hd hp
    · rw [hst] at ih1 ih2 ih3 ⊢
      have hlt : nearRoot ray a < st.2.t := himp.2.2
      simp only [hitOf_t] at ih1 ih2 ih3
      refine ⟨Or.inr ?_, le_trans ih2 (le_of_lt hlt), ?_⟩
      · rcases ih1 with ⟨he, _⟩ | ⟨s, hs, hi, he⟩
        · exact ⟨a, List.mem_cons_self _ _, himp, he⟩
        · exact ⟨s, List.mem_cons_of_mem _ hs, ⟨hi.1, hi.2.1, lt_trans hi.2.2 hlt⟩, he⟩
      · intro s hs hd hp
        rcases List.mem_cons.1 hs with rfl | hs
        · exact ih2
        · exact ih3 s hs hd hp

/-- What `IntersectRay` returns: no hit and the `inout` record with `t = 1e30` when no
sphere is accepted; otherwise the record of an accepted sphere whose near root is minimal
among the accepted ones. -/
theorem IntersectRay_spec (spheres : List (Sphere α)) (hit : HitInfo α) (ray : Ray α) :
    (IntersectRay spheres hit ray = (false, { hit with t := huge }) ∧
      ∀ s ∈ spheres, ¬ Accepted ray s) ∨
    (∃ s ∈ spheres, Accepted ray s ∧ IntersectRay spheres hit ray = (true, hitOf ray s) ∧
      ∀ s' ∈ spheres, Accepted ray s' → nearRoot ray s ≤ nearRoot ray s') := by
  obtain ⟨h1, _, h3⟩ := foldl_intersectStep ray spheres (false, { hit with t := huge })
  rcases h1 with ⟨he, hall⟩ | ⟨s, hs, hi, he⟩
  · exact Or.inl ⟨he, hall⟩
  · refine Or.inr ⟨s, hs, hi, he, ?_⟩
    intro s' hs' ha
    have := h3 s' hs' ha.1 ha.2.1
    rw [he] at this
    exact this

/-- The square root of a square of a non-negative scalar. -/
theorem sqrt_mul_self_of_nonneg (x : α) (hx : 0 ≤ x) : GLScalar.sqrt (x * x) = x :=
  (mul_self_inj (GLScalar.sqrt_nonneg _) hx).1
    (GLScalar.mul_self_sqrt (x * x) (mul_self_nonneg x))

theorem sqrt_four : GLScalar.sqrt (4 : α) = 2 := by
  have h : (4 : α) = 2 * 2 := by norm_num
  rw [h]
  exact sqrt_mul_self_of_nonneg 2 (by norm_num)

theorem delta_exRay_exSphere : delta (exRay : Ray α) exSphere = 4 := by
  simp only [delta, quadA, quadB, quadC, exRay, exSphere, Vec3.dot, Vec3.smul, Vec3.sub]
  norm_num

theorem nearRoot_exRay_exSphere : nearRoot (exRay : Ray α) exSphere = 4 := by
  rw [nearRoot, delta_exRay_exSphere, sqrt_four]
  simp only [quadA, quadB, exRay, exSphere, Vec3.dot, Vec3.smul, Vec3.sub]
  norm_num

theorem huge_pos : (0 : α) < huge := by unfold huge; positivity

theorem four_lt_huge : (4 : α) < huge := by unfold huge; norm_num

theorem accepted_exRay_exSphere : Accepted (exRay : Ray α) exSphere := by
  refine ⟨?_, ?_, ?_⟩
  · rw [delta_exRay_exSphere]; norm_num
  · rw [nearRoot_exRay_exSphere]; norm_num
  · rw [nearRoot_exRay_exSphere]; exact four_lt_huge

theorem exRay_dir_ne_zero : (exRay : Ray α).dir ≠ Vec3.zero := by
  intro h
  have h3 := congrArg Vec3.z h
  simp [exRay, Vec3.zero] at h3

/-- In the concrete scenario `IntersectRay` reports a hit, whose record is that of the
sphere. -/
theorem IntersectRay_exRay (hit : HitInfo α) :
    IntersectRay [exSphere] hit (exRay : Ray α) = (true, hitOf exRay exSphere) := by
  rcases IntersectRay_spec [exSphere] hit (exRay : Ray α) with ⟨_, hno⟩ | ⟨s, hs, _, he, _⟩
  · exact absurd accepted_exRay_exSphere (hno _ (List.mem_singleton_self _))
  · rw [List.mem_singleton.1 hs] at he
    exact he

end Intersect

section Quadratic

variable {α : Type} [LinearOrderedField α] [GLScalar α]

theorem dot_self_nonneg (v : Vec3 α) : 0 ≤ Vec3.dot v v := by
  unfold Vec3.dot
  have h1 := mul_self_nonneg v.x
  have h2 := mul_self_nonneg v.y
  have h3 := mul_self_nonneg v.z
  linarith

theorem dot_self_pos (v : Vec3 α) (hv : v ≠ Vec3.zero) : 0 < Vec3.dot v v := by
  rcases lt_or_eq_of_le (dot_self_nonneg v) with h | h
  · exact h
  · exfalso
    apply hv
    unfold Vec3.dot at h
    have h1 := mul_self_nonneg v.x
    have h2 := mul_self_nonneg v.y
    have h3 := mul_self_nonneg v.z
    have hx : v.x * v.x = 0 := by linarith
    have hy : v.y * v.y = 0 := by linarith
    have hz : v.z * v.z = 0 := by linarith
    ext
    · exact mul_self_eq_zero.1 hx
    · exact mul_self_eq_zero.1 hy
    · exact mul_self_eq_zero.1 hz

theorem quadA_pos (ray : Ray α) (hdir : ray.dir ≠ Vec3.zero) : 0 < quadA ray :=
  dot_self_pos ray.dir hdir

/-- Twice `a` times the near root is `-b - sqrt(delta)`. -/
theorem two_a_nearRoot (ray : Ray α) (s : Sphere α) (hdir : ray.dir ≠ Vec3.zero) :
    2 * quadA ray * nearRoot ray s = -quadB ray s - GLScalar.sqrt (delta ray s) := by
  have ha := quadA_pos ray hdir
  unfold nearRoot
  field_simp

/-- With a non-negative discriminant the near root is a root of the quadratic. -/
theorem nearRoot_isRoot (ray : Ray α) (s : Sphere α) (hdir : ray.dir ≠ Vec3.zero)
    (hd : 0 ≤ delta ray s) : IsRoot ray s (nearRoot ray s) := by
  have ha := quadA_pos ray hdir
  have h2 := two_a_nearRoot ray s hdir
  have hr := GLScalar.mul_self_sqrt (delta ray s) hd
  have hdel : delta ray s =
      quadB ray s * quadB ray s - 4 * quadA ray * quadC ray s := rfl
  unfold IsRoot
  have h4 : 4 * quadA ray *
      (quadA ray * nearRoot ray s * nearRoot ray s + quadB ray s * nearRoot ray s
        + quadC ray s) = 0 := by
    have e : 4 * quadA ray *
        (quadA ray * nearRoot ray s * nearRoot ray s + quadB ray s * nearRoot ray s
          + quadC ray s)
        = (2 * quadA ray * nearRoot ray s) * (2 * quadA ray * nearRoot ray s)
          + 2 * quadB ray s * (2 * quadA ray * nearRoot ray s)
          + 4 * quadA ray * quadC ray s := by ring
    rw [e, h2]
    linear_combination hr + hdel
  rcases mul_eq_zero.1 h4 with h | h
  · exfalso; linarith
  · exact h

/-- The quadratic at `t` is the squared distance of the ray point from the centre minus
the squared radius. -/
theorem isRoot_iff_on_sphere (ray : Ray α) (s : Sphere α) (t : α) :
    IsRoot ray s t ↔
      Vec3.dot (Vec3.sub (Vec3.add ray.pos (Vec3.smul t ray.dir)) s.center)
        (Vec3.sub (Vec3.add ray.pos (Vec3.smul t ray.dir)) s.center)
        = s.radius * s.radius := by
  unfold IsRoot quadA quadB quadC
  simp only [Vec3.dot, Vec3.sub, Vec3.add, Vec3.smul]
  constructor
  · intro h; linear_combination h
  · intro h; linear_combination h

/-- A real root forces a non-negative discriminant, and the near root is below it. -/
theorem root_ge_nearRoot (ray : Ray α) (s : Sphere α) (hdir : ray.dir ≠ Vec3.zero) (t : α)
    (ht : IsRoot ray s t) : 0 ≤ delta ray s ∧ nearRoot ray s ≤ t := by
  have ha := quadA_pos ray hdir
  have h2 := two_a_nearRoot ray s hdir
  have hsq : delta ray s = (2 * quadA ray * t + quadB ray s) * (2 * quadA ray * t + quadB ray s) := by
    unfold IsRoot at ht
    unfold delta
    linear_combination (-4 * quadA ray) * ht
  have hd : 0 ≤ delta ray s := by rw [hsq]; exact mul_self_nonneg _
  refine ⟨hd, ?_⟩
  have hr := GLScalar.mul_self_sqrt (delta ray s) hd
  have hr0 := GLScalar.sqrt_nonneg (delta ray s)
  have habs : -GLScalar.sqrt (delta ray s) ≤ 2 * quadA ray * t + quadB ray s := by
    by_contra hlt
    have hlt := not_le.1 hlt
    have hneg : 0 ≤ -(2 * quadA ray * t + quadB ray s) := by linarith
    have := (mul_self_inj hr0 hneg).1 (by rw [hr, hsq]; ring)
    linarith
  have hle : 2 * quadA ray * nearRoot ray s ≤ 2 * quadA ray * t := by rw [h2]; linarith
  exact le_of_mul_le_mul_left hle (by linarith)

/-- When the ray origin is strictly outside the sphere (`c > 0`), a positive real root
forces the near root to be positive. -/
theorem nearRoot_pos_of_root (ray : Ray α) (s : Sphere α) (hdir : ray.dir ≠ Vec3.zero)
    (hc : 0 < quadC ray s) (t : α) (ht0 : 0 < t) (ht : IsRoot ray s t) :
    0 < nearRoot ray s := by
  have ha := quadA_pos ray hdir
  have h2 := two_a_nearRoot ray s hdir
  obtain ⟨hd, _⟩ := root_ge_nearRoot ray s hdir t ht
  have hr := GLScalar.mul_self_sqrt (delta ray s) hd
  have hr0 := GLScalar.sqrt_nonneg (delta ray s)
  have hsq : delta ray s = (2 * quadA ray * t + quadB ray s) * (2 * quadA ray * t + quadB ray s) := by
    unfold IsRoot at ht
    unfold delta
    linear_combination (-4 * quadA ray) * ht
  have hdel : delta ray s =
      quadB ray s * quadB ray s - 4 * quadA ray * quadC ray s := rfl
  -- the far numerator is positive
  have hfar : 0 < -quadB ray s + GLScalar.sqrt (delta ray s) := by
    have hle : 2 * quadA ray * t + quadB ray s ≤ GLScalar.sqrt (delta ray s) := by
      by_contra hlt
      have hlt := not_le.1 hlt
      have hpos : 0 ≤ 2 * quadA ray * t + quadB ray s := by linarith
      have := (mul_self_inj hr0 hpos).1 (by rw [hr, hsq])
      linarith
    have : 0 < 2 * quadA ray * t := by positivity
    linarith
  have hprod : (-quadB ray s - GLScalar.sqrt (delta ray s)) *
      (-quadB ray s + GLScalar.sqrt (delta ray s)) = 4 * quadA ray * quadC ray s := by
    linear_combination -hr - hdel
  have hpp : 0 < 4 * quadA ray * quadC ray s := by positivity
  have hnum : 0 < -quadB ray s - GLScalar.sqrt (delta ray s) := by
    rw [← hprod] at hpp
    exact (pos_iff_pos_of_mul_pos hpp).2 hfar
  have : 0 < 2 * quadA ray * nearRoot ray s := by rw [h2]; exact hnum
  exact (pos_iff_pos_of_mul_pos this).1 (by linarith)

theorem sqrt_mul_self_eq_abs (x : α) : GLScalar.sqrt (x * x) = |x| := by
  rw [← abs_mul_abs_self x]
  exact sqrt_mul_self_of_nonneg |x| (abs_nonneg x)

theorem sqrt_one_eq : GLScalar.sqrt (1 : α) = 1 := by
  have h := sqrt_mul_self_of_nonneg (1 : α) zero_le_one
  rwa [mul_one] at h

/-- The position of the record of an accepted sphere lies on the sphere. -/
theorem hitOf_on_sphere (ray : Ray α) (s : Sphere α) (hdir : ray.dir ≠ Vec3.zero)
    (hd : 0 ≤ delta ray s) :
    Vec3.dot (Vec3.sub (hitOf ray s).position s.center)
      (Vec3.sub (hitOf ray s).position s.center) = s.radius * s.radius :=
  (isRoot_iff_on_sphere ray s (nearRoot ray s)).1 (nearRoot_isRoot ray s hdir hd)

/-- A vector whose squared length is `r * r` with `r ≠ 0` normalises to a unit vector
that has a positive scalar product with it. -/
theorem normalize_unit (v : Vec3 α) (r : α) (hr : r ≠ 0) (hv : Vec3.dot v v = r * r) :
    Vec3.dot (Vec3.normalize v) (Vec3.normalize v) = 1 ∧
    Vec3.length (Vec3.normalize v) = 1 ∧
    0 < Vec3.dot (Vec3.normalize v) v := by
  have hlen : Vec3.length v = |r| := by
    unfold Vec3.length; rw [hv]; exact sqrt_mul_self_eq_abs r
  have hpos : 0 < |r| := abs_pos.2 hr
  have hne : |r| ≠ 0 := ne_of_gt hpos
  have hsq : |r| * |r| = r * r := abs_mul_abs_self r
  have hdot : Vec3.dot (Vec3.normalize v) (Vec3.normalize v) = 1 := by
    unfold Vec3.normalize
    rw [hlen]
    unfold Vec3.dot at hv ⊢
    simp only
    field_simp
    linear_combination hv
  refine ⟨hdot, ?_, ?_⟩
  · unfold Vec3.length
    rw [hdot]
    exact sqrt_one_eq
  · have e : Vec3.dot (Vec3.normalize v) v = |r| := by
      unfold Vec3.normalize
      rw [hlen]
      unfold Vec3.dot at hv ⊢
      simp only
      field_simp
      linear_combination hv
    rw [e]
    exact hpos

theorem delta_exInsideRay : delta (exInsideRay : Ray α) exSphere = 4 := by
  simp only [delta, quadA, quadB, quadC, exInsideRay, exSphere, Vec3.dot, Vec3.smul, Vec3.sub]
  norm_num

theorem nearRoot_exInsideRay : nearRoot (exInsideRay : Ray α) exSphere = -1 := by
  rw [nearRoot, delta_exInsideRay, sqrt_four]
  simp only [quadA, quadB, exInsideRay, exSphere, Vec3.dot, Vec3.smul, Vec3.sub]
  norm_num

theorem isRoot_exInsideRay : IsRoot (exInsideRay : Ray α) exSphere 1 := by
  simp only [IsRoot, quadA, quadB, quadC, exInsideRay, exSphere, Vec3.dot, Vec3.smul, Vec3.sub]
  norm_num

/-- From the centre of the sphere no hit is reported. -/
theorem IntersectRay_exInsideRay (hit : HitInfo α) :
    (IntersectRay [exSphere] hit (exInsideRay : Ray α)).1 = false := by
  rcases IntersectRay_spec [exSphere] hit (exInsideRay : Ray α) with
    ⟨he, _⟩ | ⟨s, hs, ha, _, _⟩
  · rw [he]
  · exfalso
    rw [List.mem_singleton.1 hs] at ha
    have h := ha.2.1
    rw [nearRoot_exInsideRay] at h
    linarith

end Quadratic

section Tracer

variable {α : Type} [LinearOrderedField α] [GLScalar α]

theorem bounceLoop_zero (sc : Scene α) (hit : HitInfo α) (bounce : Nat)
    (st : BounceState α) : bounceLoop sc hit 0 bounce st = st := rfl

/-- The loop stops at once when the bounce limit is reached. -/
theorem bounceLoop_limit (sc : Scene α) (hit : HitInfo α) (remaining bounce : Nat)
    (st : BounceState α) (h : sc.bounceLimit ≤ (bounce : Int)) :
    bounceLoop sc hit remaining bounce st = st := by
  cases remaining with
  | zero => rfl
  | succ n => simp only [bounceLoop, h, if_true]

/-- The loop stops at once when the specular coefficient of the primary hit has a
non-positive channel sum. -/
theorem bounceLoop_primary_specular (sc : Scene α) (hit : HitInfo α) (remaining bounce : Nat)
    (st : BounceState α) (h : hit.mtl.k_s.x + hit.mtl.k_s.y + hit.mtl.k_s.z ≤ 0) :
    bounceLoop sc hit remaining bounce st = st := by
  cases remaining with
  | zero => rfl
  | succ n =>
    by_cases hb : sc.bounceLimit ≤ (bounce : Int)
    · simp only [bounceLoop, hb, if_true]
    · simp only [bounceLoop, hb, h, if_true, if_false]

/-- The procedure `Shade` reads only the spheres and the lights of the scene. -/
theorem Shade_congr (sc sc' : Scene α) (hs : sc.spheres = sc'.spheres)
    (hl : sc.lights = sc'.lights) (mtl : Material α) (position normal view : Vec3 α) :
    Shade sc mtl position normal view = Shade sc' mtl position normal view := by
  unfold Shade
  rw [hs, hl]

/-- Two scenes that differ only in bounce limits that agree below `MAX_BOUNCES` run the
same reflection loop. -/
theorem bounceLoop_congr (sc sc' : Scene α) (hs : sc.spheres = sc'.spheres)
    (hl : sc.lights = sc'.lights) (he : sc.envMap = sc'.envMap) (hit : HitInfo α)
    (bound : Nat)
    (hb : ∀ k : Nat, k < bound → (sc.bounceLimit ≤ (k : Int) ↔ sc'.bounceLimit ≤ (k : Int)))
    (remaining bounce : Nat) (hrem : bounce + remaining ≤ bound) (st : BounceState α) :
    bounceLoop sc hit remaining bounce st = bounceLoop sc' hit remaining bounce st := by
  induction remaining generalizing bounce st with
  | zero => rfl
  | succ n ih =>
    have hk : bounce < bound := by omega
    have hiff := hb bounce hk
    by_cases h1 : sc.bounceLimit ≤ (bounce : Int)
    · rw [bounceLoop_limit sc hit _ _ st h1, bounceLoop_limit sc' hit _ _ st (hiff.1 h1)]
    · have h1' : ¬ sc'.bounceLimit ≤ (bounce : Int) := fun h => h1 (hiff.2 h)
      by_cases h2 : hit.mtl.k_s.x + hit.mtl.k_s.y + hit.mtl.k_s.z ≤ 0
      · rw [bounceLoop_primary_specular sc hit _ _ st h2,
          bounceLoop_primary_specular sc' hit _ _ st h2]
      · simp only [bounceLoop, h1, h1', h2, if_false]
        rw [← hs, ← he]
        by_cases h3 : (IntersectRay sc.spheres HitInfo.uninit (reflectionRay st)).1 = true
        · simp only [h3, if_true]
          rw [Shade_congr sc sc' hs hl]
          exact ih (bounce + 1) (by omega) _
        · simp only [Bool.not_eq_true] at h3
          simp only [h3, Bool.false_eq_true, if_false]

/-- Every iteration of the loop casts at most one reflection ray, and there are at most
`remaining` iterations, and at most `bounceLimit - bounce` of them. -/
theorem bounceLoop_casts_le (sc : Scene α) (hit : HitInfo α) (remaining bounce : Nat)
    (st : BounceState α) :
    (bounceLoop sc hit remaining bounce st).casts ≤
      st.casts + min remaining (sc.bounceLimit - (bounce : Int)).toNat := by
  induction remaining generalizing bounce st with
  | zero => simp [bounceLoop]
  | succ n ih =>
    by_cases h1 : sc.bounceLimit ≤ (bounce : Int)
    · rw [bounceLoop_limit sc hit _ _ st h1]; omega
    · by_cases h2 : hit.mtl.k_s.x + hit.mtl.k_s.y + hit.mtl.k_s.z ≤ 0
      · rw [bounceLoop_primary_specular sc hit _ _ st h2]; omega
      · simp only [bounceLoop, h1, h2, if_false]
        by_cases h3 : (IntersectRay sc.spheres HitInfo.uninit (reflectionRay st)).1 = true
        · simp only [h3, if_true]
          refine le_trans (ih (bounce + 1) _) ?_
          simp only
          have : 0 < sc.bounceLimit - (bounce : Int) := by omega
          push_cast
          omega
        · simp only [Bool.not_eq_true] at h3
          simp only [h3, Bool.false_eq_true, if_false]
          omega

end Tracer

section Examples

variable {α : Type} [LinearOrderedField α] [GLScalar α]

theorem intersectStep_reject (ray : Ray α) (st : Bool × HitInfo α) (s : Sphere α)
    (h : ¬ 0 < nearRoot ray s) : intersectStep ray st s = st := by
  rcases intersectStep_cases ray st s with ⟨he, _⟩ | ⟨_, hi⟩
  · exact he
  · exact absurd hi.2.1 h

theorem intersectStep_accept (ray : Ray α) (st : Bool × HitInfo α) (s : Sphere α)
    (hd : 0 ≤ delta ray s) (hp : 0 < nearRoot ray s) (hlt : nearRoot ray s < st.2.t) :
    intersectStep ray st s = (true, hitOf ray s) := by
  rcases intersectStep_cases ray st s with ⟨_, hno⟩ | ⟨he, _⟩
  · exact absurd ⟨hd, hp, hlt⟩ hno
  · exact he

theorem normalize_z_pos : Vec3.normalize (⟨0, 0, 1⟩ : Vec3 α) = ⟨0, 0, 1⟩ := by
  have hl : Vec3.length (⟨0, 0, 1⟩ : Vec3 α) = 1 := by
    simp only [Vec3.length, Vec3.dot, mul_zero, mul_one, zero_add]
    exact sqrt_one_eq
  simp only [Vec3.normalize, hl, div_one]

theorem normalize_z_neg : Vec3.normalize (⟨0, 0, -1⟩ : Vec3 α) = ⟨0, 0, -1⟩ := by
  have hl : Vec3.length (⟨0, 0, -1⟩ : Vec3 α) = 1 := by
    simp only [Vec3.length, Vec3.dot, mul_zero, mul_neg, mul_one, neg_neg, zero_add]
    exact sqrt_one_eq
  simp only [Vec3.normalize, hl, div_one]

theorem normalize_y (k : α) (hk : 0 < k) :
    Vec3.normalize (⟨0, k, 0⟩ : Vec3 α) = ⟨0, 1, 0⟩ := by
  have hl : Vec3.length (⟨0, k, 0⟩ : Vec3 α) = k := by
    simp only [Vec3.length, Vec3.dot, mul_zero, zero_add, add_zero]
    exact sqrt_mul_self_of_nonneg k (le_of_lt hk)
  simp only [Vec3.normalize, hl, zero_div, div_self (ne_of_gt hk)]

theorem eight_lt_huge : (8 : α) < huge := by unfold huge; norm_num

/-- The primary hit on the mirror sphere. -/
theorem hitOf_exRay_exMirror :
    hitOf (exRay : Ray α) exMirror = ⟨4, ⟨0, 0, -4⟩, ⟨0, 0, 1⟩, exMirror.mtl⟩ := by
  have hn : nearRoot (exRay : Ray α) exMirror = 4 := nearRoot_exRay_exSphere
  have hv : Vec3.sub (⟨0, 0, -4⟩ : Vec3 α) (exMirror : Sphere α).center = ⟨0, 0, 1⟩ := by
    simp only [exMirror, Vec3.sub]
    norm_num
  have hp : Vec3.add (exRay : Ray α).pos (Vec3.smul 4 (exRay : Ray α).dir) = ⟨0, 0, -4⟩ := by
    simp only [exRay, Vec3.add, Vec3.smul]
    norm_num
  simp only [hitOf, hn, hp, hv, normalize_z_pos]

theorem IntersectRay_exRay_two (hit : HitInfo α) :
    IntersectRay [exMirror, exDiffuse] hit (exRay : Ray α) = (true, hitOf exRay exMirror) := by
  have hd : delta (exRay : Ray α) exMirror = 4 := delta_exRay_exSphere
  have hn : nearRoot (exRay : Ray α) exMirror = 4 := nearRoot_exRay_exSphere
  have hd2 : delta (exRay : Ray α) exDiffuse = 4 := by
    simp only [delta, quadA, quadB, quadC, exRay, exDiffuse, Vec3.dot, Vec3.smul, Vec3.sub]
    norm_num
  have hn2 : nearRoot (exRay : Ray α) exDiffuse = -6 := by
    rw [nearRoot, hd2, sqrt_four]
    simp only [quadA, quadB, exRay, exDiffuse, Vec3.dot, Vec3.smul, Vec3.sub]
    norm_num
  have e1 : intersectStep (exRay : Ray α) (false, { hit with t := huge }) exMirror
      = (true, hitOf exRay exMirror) :=
    intersectStep_accept _ _ _ (by rw [hd]; norm_num) (by rw [hn]; norm_num)
      (by rw [hn]; exact four_lt_huge)
  have e2 : intersectStep (exRay : Ray α) (true, hitOf exRay exMirror) exDiffuse
      = (true, hitOf exRay exMirror) :=
    intersectStep_reject _ _ _ (by rw [hn2]; norm_num)
  unfold IntersectRay
  rw [List.foldl_cons, List.foldl_cons, List.foldl_nil, e1, e2]

/-- The first reflection ray hits the diffuse sphere. -/
theorem IntersectRay_exReflect (hit : HitInfo α) :
    IntersectRay [exMirror, exDiffuse] hit (exReflect : Ray α)
      = (true, ⟨8, ⟨0, 0, 4⟩, ⟨0, 0, -1⟩, exMtl⟩) := by
  have hd : delta (exReflect : Ray α) exMirror = 4 := by
    simp only [delta, quadA, quadB, quadC, exReflect, exMirror, Vec3.dot, Vec3.smul, Vec3.sub]
    norm_num
  have hn : nearRoot (exReflect : Ray α) exMirror = -2 := by
    rw [nearRoot, hd, sqrt_four]
    simp only [quadA, quadB, exReflect, exMirror, Vec3.dot, Vec3.smul, Vec3.sub]
    norm_num
  have hd2 : delta (exReflect : Ray α) exDiffuse = 4 := by
    simp only [delta, quadA, quadB, quadC, exReflect, exDiffuse, Vec3.dot, Vec3.smul, Vec3.sub]
    norm_num
  have hn2 : nearRoot (exReflect : Ray α) exDiffuse = 8 := by
    rw [nearRoot, hd2, sqrt_four]
    simp only [quadA, quadB, exReflect, exDiffuse, Vec3.dot, Vec3.smul, Vec3.sub]
    norm_num
  have hv : Vec3.sub (⟨0, 0, 4⟩ : Vec3 α) (exDiffuse : Sphere α).center = ⟨0, 0, -1⟩ := by
    simp only [exDiffuse, Vec3.sub]
    norm_num
  have hp : Vec3.add (exReflect : Ray α).pos (Vec3.smul 8 (exReflect : Ray α).dir)
      = ⟨0, 0, 4⟩ := by
    simp only [exReflect, Vec3.add, Vec3.smul]
    norm_num
  have hh : hitOf (exReflect : Ray α) exDiffuse = ⟨8, ⟨0, 0, 4⟩, ⟨0, 0, -1⟩, exMtl⟩ := by
    simp only [hitOf, hn2, hp, hv, normalize_z_neg]
    rfl
  have e1 : intersectStep (exReflect : Ray α) (false, { hit with t := huge }) exMirror
      = (false, { hit with t := huge }) :=
    intersectStep_reject _ _ _ (by rw [hn]; norm_num)
  have e2 : intersectStep (exReflect : Ray α) (false, { hit with t := huge }) exDiffuse
      = (true, hitOf exReflect exDiffuse) :=
    intersectStep_accept _ _ _ (by rw [hd2]; norm_num) (by rw [hn2]; norm_num)
      (by rw [hn2]; exact eight_lt_huge)
  unfold IntersectRay
  rw [List.foldl_cons, List.foldl_cons, List.foldl_nil, e1, e2, hh]

theorem primaryState_exTwoScene :
    primaryState (exTwoScene : Scene α) exRay (hitOf exRay exMirror) = exState0 := by
  have hview : Vec3.normalize (Vec3.neg (exRay : Ray α).dir) = ⟨0, 0, 1⟩ := by
    have : Vec3.neg (exRay : Ray α).dir = ⟨0, 0, 1⟩ := by
      simp only [Vec3.neg, exRay, neg_zero, neg_neg]
    rw [this, normalize_z_pos]
  rw [hitOf_exRay_exMirror]
  simp only [primaryState, hview, exState0, Shade, exTwoScene, List.foldl_nil, Vec3.zero,
    exMirror]

theorem reflectionRay_exState0 : reflectionRay (exState0 : BounceState α) = exReflect := by
  simp only [reflectionRay, exState0, exReflect, Vec3.dot, Vec3.smul, Vec3.sub]
  norm_num

/-- On `exTwoScene` the reflection loop reaches `exState1` after its first iteration. -/
theorem bounceLoop_exState0 (hit : HitInfo α) (remaining : Nat)
    (hks : hit.mtl.k_s = ⟨1, 1, 1⟩) :
    bounceLoop (exTwoScene : Scene α) hit (remaining + 1) 0 exState0 =
      bounceLoop exTwoScene hit remaining 1 exState1 := by
  have h1 : ¬ (exTwoScene : Scene α).bounceLimit ≤ ((0 : Nat) : Int) := by
    simp [exTwoScene]
  have h2 : ¬ hit.mtl.k_s.x + hit.mtl.k_s.y + hit.mtl.k_s.z ≤ 0 := by
    rw [hks]; norm_num
  have hsp : (exTwoScene : Scene α).spheres = [exMirror, exDiffuse] := rfl
  have hst : ({ view := Vec3.neg (exReflect : Ray α).dir
                norm := (⟨0, 0, -1⟩ : Vec3 α)
                poss := ⟨0, 0, 4⟩
                k_s := Vec3.mul (exState0 : BounceState α).k_s (exMtl : Material α).k_s
                clr := Vec3.add (exState0 : BounceState α).clr
                  (Vec3.mul (Shade (exTwoScene : Scene α) exMtl ⟨0, 0, 4⟩ ⟨0, 0, -1⟩
                    (Vec3.neg (exReflect : Ray α).dir)) (exState0 : BounceState α).k_s)
                casts := (exState0 : BounceState α).casts + 1 } : BounceState α)
      = exState1 := by
    simp only [exState0, exState1, exReflect, exMtl, Vec3.neg, Vec3.mul, Vec3.add, Shade,
      exTwoScene, List.foldl_nil, Vec3.zero, neg_zero, mul_zero, zero_mul, add_zero, zero_add]
  simp only [bounceLoop, h1, h2, if_false, reflectionRay_exState0, hsp,
    IntersectRay_exReflect, if_true]
  rw [hst]

/-- One more iteration casts exactly one more ray when neither exit test fires. -/
theorem bounceLoop_one_casts (sc : Scene α) (hit : HitInfo α) (bounce : Nat)
    (st : BounceState α) (h1 : ¬ sc.bounceLimit ≤ (bounce : Int))
    (h2 : ¬ hit.mtl.k_s.x + hit.mtl.k_s.y + hit.mtl.k_s.z ≤ 0) :
    (bounceLoop sc hit 1 bounce st).casts = st.casts + 1 := by
  simp only [bounceLoop, h1, h2, if_false]
  by_cases h3 : (IntersectRay sc.spheres HitInfo.uninit (reflectionRay st)).1 = true
  · simp only [h3, if_true]
  · simp only [Bool.not_eq_true] at h3
    simp only [h3, Bool.false_eq_true, if_false]

/-- The run of `RayTracer` on `exTwoScene` and `exRay`: the primary ray hits the mirror
sphere, the loop reaches `exState1` at the head of its second iteration, and a second
reflection ray is cast from there. -/
theorem exTwoScene_run :
    IntersectRay (exTwoScene : Scene α).spheres HitInfo.uninit exRay
      = (true, hitOf exRay exMirror) ∧
    finalState (exTwoScene : Scene α) exRay (hitOf exRay exMirror)
      = bounceLoop exTwoScene (hitOf exRay exMirror) 1 1 exState1 ∧
    (bounceLoop (exTwoScene : Scene α) (hitOf exRay exMirror) 1 1 exState1).casts
      = (exState1 : BounceState α).casts + 1 := by
  have hks : (hitOf (exRay : Ray α) exMirror).mtl.k_s = ⟨1, 1, 1⟩ := rfl
  refine ⟨IntersectRay_exRay_two _, ?_, ?_⟩
  · unfold finalState
    rw [primaryState_exTwoScene]
    exact bounceLoop_exState0 _ 1 hks
  · apply bounceLoop_one_casts
    · simp [exTwoScene]
    · rw [hks]; norm_num

theorem sqrt_sixty_four : GLScalar.sqrt (64 : α) = 8 := by
  have h : (64 : α) = 8 * 8 := by norm_num
  rw [h]
  exact sqrt_mul_self_of_nonneg 8 (by norm_num)

theorem bias_lt_quarter : (bias : α) < 1 / 4 := by
  unfold bias
  norm_num

theorem quarter_lt_huge : (1 / 4 : α) < huge := by
  unfold huge
  norm_num

/-- The shadow ray from the origin to `exLight` hits the occluder at `t = 1/4`. -/
theorem IntersectRay_exShadow (hit : HitInfo α) :
    (IntersectRay [exOccluder] hit (shadowRay (⟨0, 0, 0⟩ : Vec3 α) exLight)).1 = true ∧
    (IntersectRay [exOccluder] hit (shadowRay (⟨0, 0, 0⟩ : Vec3 α) exLight)).2.t = 1 / 4 := by
  have hd : delta (shadowRay (⟨0, 0, 0⟩ : Vec3 α) exLight) exOccluder = 64 := by
    simp only [delta, quadA, quadB, quadC, shadowRay, exLight, exOccluder, Vec3.dot,
      Vec3.smul, Vec3.sub]
    norm_num
  have hn : nearRoot (shadowRay (⟨0, 0, 0⟩ : Vec3 α) exLight) exOccluder = 1 / 4 := by
    rw [nearRoot, hd, sqrt_sixty_four]
    simp only [quadA, quadB, shadowRay, exLight, exOccluder, Vec3.dot, Vec3.smul, Vec3.sub]
    norm_num
  have e1 : intersectStep (shadowRay (⟨0, 0, 0⟩ : Vec3 α) exLight)
      (false, { hit with t := huge }) exOccluder
      = (true, hitOf (shadowRay (⟨0, 0, 0⟩ : Vec3 α) exLight) exOccluder) :=
    intersectStep_accept _ _ _ (by rw [hd]; norm_num) (by rw [hn]; norm_num)
      (by rw [hn]; exact quarter_lt_huge)
  unfold IntersectRay
  rw [List.foldl_cons, List.foldl_nil, e1]
  exact ⟨rfl, hn⟩

theorem lightT_exLight : lightT (⟨0, 0, 0⟩ : Vec3 α) exLight = 0 := by
  simp only [lightT, shadowRay, exLight, Vec3.sub, sub_zero, div_zero]

theorem lightTerm_exLight :
    lightTerm (exMtl : Material α) ⟨0, 0, 0⟩ ⟨0, 1, 0⟩ ⟨0, 1, 0⟩ exLight = ⟨1, 1, 1⟩ := by
  have hl : Vec3.normalize (Vec3.sub (exLight : Light α).position ⟨0, 0, 0⟩) = ⟨0, 1, 0⟩ := by
    have : Vec3.sub (exLight : Light α).position ⟨0, 0, 0⟩ = ⟨0, 4, 0⟩ := by
      simp only [exLight, Vec3.sub, sub_zero]
    rw [this]
    exact normalize_y 4 (by norm_num)
  have hh : Vec3.normalize (⟨0 + 0, 1 + 1, 0 + 0⟩ : Vec3 α) = ⟨0, 1, 0⟩ := by
    have : (⟨0 + 0, 1 + 1, 0 + 0⟩ : Vec3 α) = ⟨0, 2, 0⟩ := by norm_num
    rw [this]
    exact normalize_y 2 (by norm_num)
  simp only [lightTerm, hl, hh]
  simp only [Vec3.dot, Vec3.smul, Vec3.muls, Vec3.mul, Vec3.add, exMtl, exLight]
  norm_num

/-- The evaluation of `Shade` at the origin under `exLight` behind the occluder. -/
theorem Shade_exShadowScene :
    Shade (exShadowScene : Scene α) exMtl ⟨0, 0, 0⟩ ⟨0, 1, 0⟩ ⟨0, 1, 0⟩ = ⟨1, 1, 1⟩ := by
  obtain ⟨h1, h2⟩ := IntersectRay_exShadow (HitInfo.uninit : HitInfo α)
  have hnot : ¬ ((bias : α) < 1 / 4 ∧ (1 / 4 : α) < 0) := by
    intro h
    have := h.2
    norm_num at this
  have hn : Vec3.normalize (⟨0, 1, 0⟩ : Vec3 α) = ⟨0, 1, 0⟩ := normalize_y 1 one_pos
  simp only [Shade, exShadowScene, List.foldl_cons, List.foldl_nil, shadeStep, hn, h1, h2,
    lightT_exLight, hnot, if_true, if_false, lightTerm_exLight, Vec3.add, Vec3.zero]
  norm_num

/-- Where the light and the shaded point differ in `x`, a nearest occluder with
`bias < t < 1` makes the iteration of `Shade` for that light add nothing. -/
theorem shadeStep_shadowed (spheres : List (Sphere α)) (mtl : Material α)
    (position norm viewDir color : Vec3 α) (light : Light α)
    (hx : light.position.x ≠ position.x)
    (hfound : (IntersectRay spheres HitInfo.uninit (shadowRay position light)).1 = true)
    (hlo : bias < (IntersectRay spheres HitInfo.uninit (shadowRay position light)).2.t)
    (hhi : (IntersectRay spheres HitInfo.uninit (shadowRay position light)).2.t < 1) :
    shadeStep spheres mtl position norm viewDir color light = color := by
  have hT : lightT position light = 1 := by
    simp only [lightT, shadowRay, Vec3.sub]
    exact div_self (sub_ne_zero.2 hx)
  simp only [shadeStep, hfound, hT, hlo, hhi, and_self, if_true]

end Examples

section Shading

variable {α : Type} [LinearOrderedField α] [GLScalar α]

theorem Vec3.add_zero_right (v : Vec3 α) : Vec3.add v Vec3.zero = v := by
  simp only [Vec3.add, Vec3.zero, add_zero]

theorem Vec3.add_zero_left (v : Vec3 α) : Vec3.add Vec3.zero v = v := by
  simp only [Vec3.add, Vec3.zero, zero_add]

theorem Vec3.add_assoc_eq (u v w : Vec3 α) :
    Vec3.add (Vec3.add u v) w = Vec3.add u (Vec3.add v w) := by
  simp only [Vec3.add, add_assoc]

/-- One iteration of the loop of `Shade` adds the contribution of its light. -/
theorem shadeStep_eq_add (sc : Scene α) (mtl : Material α)
    (position normal view color : Vec3 α) (light : Light α) :
    shadeStep sc.spheres mtl position (Vec3.normalize normal) (Vec3.normalize view) color light
      = Vec3.add color (lightContribution sc mtl position normal view light) := by
  unfold shadeStep lightContribution
  simp only [shadowRay, lightT, bias, lightTerm, Vec3.add]
  by_cases h1 : (IntersectRay sc.spheres HitInfo.uninit
      ⟨position, Vec3.sub light.position position⟩).1 = true
  · by_cases h2 : 1 / 10 ^ 7 < (IntersectRay sc.spheres HitInfo.uninit
        ⟨position, Vec3.sub light.position position⟩).2.t ∧
        (IntersectRay sc.spheres HitInfo.uninit
          ⟨position, Vec3.sub light.position position⟩).2.t <
          (light.position.x - position.x) / (Vec3.sub light.position position).x
    · simp only [h1, h2, and_self, if_true, Vec3.zero, add_zero]
    · simp only [h1, h2, and_false, if_true, if_false]
  · simp only [Bool.not_eq_true] at h1
    simp only [h1, Bool.false_eq_true, false_and, if_false]

theorem foldl_shadeStep (sc : Scene α) (mtl : Material α) (position normal view : Vec3 α)
    (lights : List (Light α)) (color : Vec3 α) :
    lights.foldl
      (shadeStep sc.spheres mtl position (Vec3.normalize normal) (Vec3.normalize view)) color
      = Vec3.add color (vecSum (lights.map (lightContribution sc mtl position normal view))) := by
  induction lights generalizing color with
  | nil => simp only [List.foldl_nil, List.map_nil, vecSum, Vec3.add_zero_right]
  | cons l ls ih =>
    rw [List.foldl_cons, ih, shadeStep_eq_add, List.map_cons, vecSum, Vec3.add_assoc_eq]

end Shading

section ShadingExamples

variable {α : Type} [LinearOrderedField α] [GLScalar α]

theorem unit_y_ne_zero : (⟨0, 1, 0⟩ : Vec3 α) ≠ Vec3.zero := by
  intro h
  have h2 := congrArg Vec3.y h
  simp [Vec3.zero] at h2

end ShadingExamples

section ShadingBounds

variable {α : Type} [LinearOrderedField α] [GLScalar α]

theorem lightTerm_nonneg (mtl : Material α) (position norm viewDir : Vec3 α) (light : Light α)
    (hi : Vec3.Nonneg light.intensity) (hd : Vec3.Nonneg mtl.k_d) (hs : Vec3.Nonneg mtl.k_s) :
    Vec3.Nonneg (lightTerm mtl position norm viewDir light) := by
  obtain ⟨hi1, hi2, hi3⟩ := hi
  obtain ⟨hd1, hd2, hd3⟩ := hd
  obtain ⟨hs1, hs2, hs3⟩ := hs
  simp only [lightTerm, Vec3.Nonneg, Vec3.mul, Vec3.add, Vec3.smul, Vec3.muls]
  have hg : ∀ x : α, 0 ≤ max 0 x := fun x => le_max_left 0 x
  have hp : ∀ x y : α, 0 ≤ GLScalar.pow (max 0 x) y :=
    fun x y => GLScalar.pow_nonneg _ y (hg x)
  refine ⟨?_, ?_, ?_⟩
  · exact mul_nonneg hi1 (add_nonneg (mul_nonneg (hg _) hd1) (mul_nonneg hs1 (hp _ _)))
  · exact mul_nonneg hi2 (add_nonneg (mul_nonneg (hg _) hd2) (mul_nonneg hs2 (hp _ _)))
  · exact mul_nonneg hi3 (add_nonneg (mul_nonneg (hg _) hd3) (mul_nonneg hs3 (hp _ _)))

theorem Vec3.Nonneg.add {u v : Vec3 α} (hu : Vec3.Nonneg u) (hv : Vec3.Nonneg v) :
    Vec3.Nonneg (Vec3.add u v) :=
  ⟨add_nonneg hu.1 hv.1, add_nonneg hu.2.1 hv.2.1, add_nonneg hu.2.2 hv.2.2⟩

theorem shadeStep_nonneg (spheres : List (Sphere α)) (mtl : Material α)
    (position norm viewDir color : Vec3 α) (light : Light α)
    (hi : Vec3.Nonneg light.intensity) (hd : Vec3.Nonneg mtl.k_d) (hs : Vec3.Nonneg mtl.k_s)
    (hc : Vec3.Nonneg color) :
    Vec3.Nonneg (shadeStep spheres mtl position norm viewDir color light) := by
  have ht := lightTerm_nonneg mtl position norm viewDir light hi hd hs
  unfold shadeStep
  simp only
  split
  · split
    · exact hc
    · exact hc.add ht
  · exact hc.add ht

theorem foldl_shadeStep_nonneg (spheres : List (Sphere α)) (mtl : Material α)
    (position norm viewDir : Vec3 α) (lights : List (Light α))
    (hi : ∀ l ∈ lights, Vec3.Nonneg l.intensity)
    (hd : Vec3.Nonneg mtl.k_d) (hs : Vec3.Nonneg mtl.k_s)
    (color : Vec3 α) (hc : Vec3.Nonneg color) :
    Vec3.Nonneg (lights.foldl (shadeStep spheres mtl position norm viewDir) color) := by
  induction lights generalizing color with
  | nil => exact hc
  | cons l ls ih =>
    rw [List.foldl_cons]
    exact ih (fun l' hl' => hi l' (List.mem_cons_of_mem _ hl')) _
      (shadeStep_nonneg spheres mtl position norm viewDir color l
        (hi l (List.mem_cons_self _ _)) hd hs hc)

/-- The iteration of `Shade` for the occluded light at `(0,4,0)` adds `(1,1,1)`. -/
theorem shadeStep_exLight (color : Vec3 α) :
    shadeStep [exOccluder] (exMtl : Material α) ⟨0, 0, 0⟩ ⟨0, 1, 0⟩ ⟨0, 1, 0⟩ color exLight
      = Vec3.add color ⟨1, 1, 1⟩ := by
  obtain ⟨h1, h2⟩ := IntersectRay_exShadow (HitInfo.uninit : HitInfo α)
  have hnot : ¬ ((bias : α) < 1 / 4 ∧ (1 / 4 : α) < 0) := by
    intro h
    have := h.2
    norm_num at this
  simp only [shadeStep, h1, h2, lightT_exLight, hnot, if_true, if_false, lightTerm_exLight]

theorem Shade_exTwoLightScene :
    Shade (exTwoLightScene : Scene α) exMtl ⟨0, 0, 0⟩ ⟨0, 1, 0⟩ ⟨0, 1, 0⟩ = ⟨2, 2, 2⟩ := by
  have hn : Vec3.normalize (⟨0, 1, 0⟩ : Vec3 α) = ⟨0, 1, 0⟩ := normalize_y 1 one_pos
  simp only [Shade, exTwoLightScene, List.foldl_cons, List.foldl_nil, hn, shadeStep_exLight,
    Vec3.add, Vec3.zero]
  norm_num

/-- The square root of `j * j * x` for non-negative `j` and `x`. -/
theorem sqrt_mul_self_mul (j x : α) (hj : 0 ≤ j) (hx : 0 ≤ x) :
    GLScalar.sqrt (j * j * x) = j * GLScalar.sqrt x := by
  have h1 : 0 ≤ j * j * x := mul_nonneg (mul_self_nonneg j) hx
  refine (mul_self_inj (GLScalar.sqrt_nonneg _) (mul_nonneg hj (GLScalar.sqrt_nonneg x))).1 ?_
  rw [GLScalar.mul_self_sqrt _ h1]
  have h2 := GLScalar.mul_self_sqrt x hx
  linear_combination (-(j * j)) * h2

/-- Scaling a vector by a positive factor does not change its normalisation. -/
theorem normalize_smul (j : α) (v : Vec3 α) (hj : 0 < j) :
    Vec3.normalize (Vec3.smul j v) = Vec3.normalize v := by
  have hd : Vec3.dot (Vec3.smul j v) (Vec3.smul j v) = j * j * Vec3.dot v v := by
    simp only [Vec3.dot, Vec3.smul]; ring
  have hl : Vec3.length (Vec3.smul j v) = j * Vec3.length v := by
    unfold Vec3.length
    rw [hd]
    exact sqrt_mul_self_mul j _ (le_of_lt hj) (dot_self_nonneg v)
  have hne : j ≠ 0 := ne_of_gt hj
  simp only [Vec3.normalize, hl]
  simp only [Vec3.smul, mul_div_mul_left _ _ hne]

end ShadingBounds

section Ties

variable {α : Type} [LinearOrderedField α] [GLScalar α]

/-- The scan of `IntersectRay` from an arbitrary loop state, when some sphere improves on
the running best: the final record is that of a sphere `s` of the list such that every
sphere before it with a positive near root and non-negative discriminant has a strictly
larger near root, and every such sphere after it has a near root at least as large. -/
theorem foldl_intersectStep_first (ray : Ray α) (l : List (Sphere α))
    (st : Bool × HitInfo α) (hex : ∃ s ∈ l, Improves ray st.2.t s) :
    ∃ l1 s l2, l = l1 ++ s :: l2 ∧ Improves ray st.2.t s ∧
      l.foldl (intersectStep ray) st = (true, hitOf ray s) ∧
      (∀ s' ∈ l1, 0 ≤ delta ray s' → 0 < nearRoot ray s' →
        nearRoot ray s < nearRoot ray s') ∧
      (∀ s' ∈ l2, 0 ≤ delta ray s' → 0 < nearRoot ray s' →
        nearRoot ray s ≤ nearRoot ray s') := by
  induction l generalizing st with
  | nil =>
    obtain ⟨s, hs, _⟩ := hex
    cases hs
  | cons a l ih =>
    rw [List.foldl_cons]
    rcases intersectStep_cases ray st a with ⟨hst, hno⟩ | ⟨hst, himp⟩
    · -- `a` is not taken
      have hex' : ∃ s ∈ l, Improves ray (intersectStep ray st a).2.t s := by
        obtain ⟨s, hs, hi⟩ := hex
        rcases List.mem_cons.1 hs with rfl | hs
        · exact absurd hi hno
        · exact ⟨s, hs, by rw [hst]; exact hi⟩
      obtain ⟨l1, s, l2, hl, hi, hf, hb, ha⟩ := ih (intersectStep ray st a) hex'
      rw [hst] at hi
      refine ⟨a :: l1, s, l2, by rw [hl]; rfl, hi, hf, ?_, ha⟩
      intro s' hs' hd hp
      rcases List.mem_cons.1 hs' with rfl | hs'
      · by_contra hlt
        exact hno ⟨hd, hp, lt_of_le_of_lt (not_lt.1 hlt) hi.2.2⟩
      · exact hb s' hs' hd hp
    · -- `a` is taken
      by_cases hex' : ∃ s ∈ l, Improves ray (nearRoot ray a) s
      · have hex'' : ∃ s ∈ l, Improves ray (intersectStep ray st a).2.t s := by
          rw [hst]; exact hex'
        obtain ⟨l1, s, l2, hl, hi, hf, hb, ha⟩ := ih (intersectStep ray st a) hex''
        rw [hst] at hi
        have hlt : nearRoot ray s < nearRoot ray a := hi.2.2
        refine ⟨a :: l1, s, l2, by rw [hl]; rfl,
          ⟨hi.1, hi.2.1, lt_trans hlt himp.2.2⟩, hf, ?_, ha⟩
        intro s' hs' hd hp
        rcases List.mem_cons.1 hs' with rfl | hs'
        · exact hlt
        · exact hb s' hs' hd hp
      · have hall : ∀ s ∈ l, ¬ Improves ray (nearRoot ray a) s :=
          fun s hs hi => hex' ⟨s, hs, hi⟩
        obtain ⟨h1, _, _⟩ := foldl_intersectStep ray l (intersectStep ray st a)
        have hf : l.foldl (intersectStep ray) (intersectStep ray st a)
            = (true, hitOf ray a) := by
          rcases h1 with ⟨he, _⟩ | ⟨s, hs, hi, _⟩
          · rw [he, hst]
          · rw [hst] at hi
            exact absurd hi (hall s hs)
        refine ⟨[], a, l, rfl, himp, hf, ?_, ?_⟩
        · intro s' hs'
          cases hs'
        · intro s' hs' hd hp
          by_contra hlt
          exact hall s' hs' ⟨hd, hp, not_le.1 hlt⟩

/-- A ray that starts on a sphere has a non-positive near root for that sphere. -/
theorem nearRoot_nonpos_of_on_sphere (ray : Ray α) (s : Sphere α)
    (hdir : ray.dir ≠ Vec3.zero)
    (hon : Vec3.dot (Vec3.sub ray.pos s.center) (Vec3.sub ray.pos s.center)
      = s.radius * s.radius) :
    nearRoot ray s ≤ 0 := by
  have ha := quadA_pos ray hdir
  have h2 := two_a_nearRoot ray s hdir
  have hc : quadC ray s = 0 := by unfold quadC; rw [hon]; ring
  have hd : delta ray s = quadB ray s * quadB ray s := by
    unfold delta; rw [hc]; ring
  have hs : GLScalar.sqrt (delta ray s) = |quadB ray s| := by
    rw [hd]; exact sqrt_mul_self_eq_abs _
  rw [hs] at h2
  have hle : 2 * quadA ray * nearRoot ray s ≤ 0 := by
    rw [h2]
    have := neg_abs_le (quadB ray s)
    linarith
  by_contra hpos
  have hpos := not_le.1 hpos
  have : 0 < 2 * quadA ray * nearRoot ray s := by positivity
  linarith

theorem exReflect_dir_ne_zero : (exReflect : Ray α).dir ≠ Vec3.zero := by
  intro h
  have h3 := congrArg Vec3.z h
  simp [exReflect, Vec3.zero] at h3

theorem exReflect_on_exMirror :
    Vec3.dot (Vec3.sub (exReflect : Ray α).pos (exMirror : Sphere α).center)
      (Vec3.sub (exReflect : Ray α).pos (exMirror : Sphere α).center)
      = (exMirror : Sphere α).radius * (exMirror : Sphere α).radius := by
  simp only [exReflect, exMirror, Vec3.dot, Vec3.sub]
  norm_num

/-- The concrete scenario for any material of the sphere. -/
theorem IntersectRay_concrete (mtl : Material α) (hit : HitInfo α) :
    IntersectRay [(⟨⟨0, 0, -5⟩, 1, mtl⟩ : Sphere α)] hit (exRay : Ray α)
      = (true, ⟨4, ⟨0, 0, -4⟩, ⟨0, 0, 1⟩, mtl⟩) := by
  have hd : delta (exRay : Ray α) ⟨⟨0, 0, -5⟩, 1, mtl⟩ = 4 := by
    simp only [delta, quadA, quadB, quadC, exRay, Vec3.dot, Vec3.smul, Vec3.sub]
    norm_num
  have hn : nearRoot (exRay : Ray α) ⟨⟨0, 0, -5⟩, 1, mtl⟩ = 4 := by
    rw [nearRoot, hd, sqrt_four]
    simp only [quadA, quadB, exRay, Vec3.dot, Vec3.smul, Vec3.sub]
    norm_num
  have hp : Vec3.add (exRay : Ray α).pos (Vec3.smul 4 (exRay : Ray α).dir) = ⟨0, 0, -4⟩ := by
    simp only [exRay, Vec3.add, Vec3.smul]
    norm_num
  have hv : Vec3.sub (⟨0, 0, -4⟩ : Vec3 α) (⟨0, 0, -5⟩ : Vec3 α) = ⟨0, 0, 1⟩ := by
    simp only [Vec3.sub]
    norm_num
  have hh : hitOf (exRay : Ray α) ⟨⟨0, 0, -5⟩, 1, mtl⟩
      = ⟨4, ⟨0, 0, -4⟩, ⟨0, 0, 1⟩, mtl⟩ := by
    simp only [hitOf, hn, hp, hv, normalize_z_pos]
  have e1 : intersectStep (exRay : Ray α) (false, { hit with t := huge })
      ⟨⟨0, 0, -5⟩, 1, mtl⟩ = (true, hitOf exRay ⟨⟨0, 0, -5⟩, 1, mtl⟩) :=
    intersectStep_accept _ _ _ (by rw [hd]; norm_num) (by rw [hn]; norm_num)
      (by rw [hn]; exact four_lt_huge)
  unfold IntersectRay
  rw [List.foldl_cons, List.foldl_nil, e1, hh]

end Ties

section TiesExamples

variable {α : Type} [LinearOrderedField α] [GLScalar α]

theorem intersectStep_keep (ray : Ray α) (st : Bool × HitInfo α) (s : Sphere α)
    (h : ¬ nearRoot ray s < st.2.t) : intersectStep ray st s = st := by
  rcases intersectStep_cases ray st s with ⟨he, _⟩ | ⟨_, hi⟩
  · exact he
  · exact absurd hi.2.2 h

/-- Two spheres with the same centre and radius: the first one is returned. -/
theorem IntersectRay_tie (hit : HitInfo α) :
    IntersectRay [exMirror, exSphere] hit (exRay : Ray α) = (true, hitOf exRay exMirror) := by
  have hd : delta (exRay : Ray α) exMirror = 4 := delta_exRay_exSphere
  have hn : nearRoot (exRay : Ray α) exMirror = 4 := nearRoot_exRay_exSphere
  have e1 : intersectStep (exRay : Ray α) (false, { hit with t := huge }) exMirror
      = (true, hitOf exRay exMirror) :=
    intersectStep_accept _ _ _ (by rw [hd]; norm_num) (by rw [hn]; norm_num)
      (by rw [hn]; exact four_lt_huge)
  have e2 : intersectStep (exRay : Ray α) (true, hitOf exRay exMirror) exSphere
      = (true, hitOf exRay exMirror) :=
    intersectStep_keep _ _ _ (by
      rw [nearRoot_exRay_exSphere, hitOf_t, hn]
      exact lt_irrefl _)
  unfold IntersectRay
  rw [List.foldl_cons, List.foldl_cons, List.foldl_nil, e1, e2]

end TiesExamples

section ConcreteScenario

variable {α : Type} [LinearOrderedField α] [GLScalar α]

/-- The term added for a light is the intensity times the sum of the diffuse and the
specular term. -/
theorem lightTerm_eq (mtl : Material α) (position norm viewDir : Vec3 α) (light : Light α) :
    lightTerm mtl position norm viewDir light
      = Vec3.mul light.intensity
          (Vec3.add (diffuseTerm mtl position norm light)
            (specularTerm mtl position norm viewDir light)) := rfl

theorem sqrt_pos_of_pos (x : α) (hx : 0 < x) : 0 < GLScalar.sqrt x := by
  rcases lt_or_eq_of_le (GLScalar.sqrt_nonneg x) with h | h
  · exact h
  · exfalso
    have h2 := GLScalar.mul_self_sqrt x (le_of_lt hx)
    rw [← h, mul_zero] at h2
    exact absurd h2.symm (ne_of_gt hx)

/-- At the hit point `(0,0,-4)` of the concrete scenario the light at `(0,5,-5)` lies
behind the tangent plane: `dot(n, l) = -1 / sqrt(26)`. -/
theorem dot_norm_lightDir_concrete :
    Vec3.dot (⟨0, 0, 1⟩ : Vec3 α)
      (Vec3.normalize (Vec3.sub (exTopLight : Light α).position ⟨0, 0, -4⟩))
      = -1 / GLScalar.sqrt 26 ∧
    Vec3.dot (⟨0, 0, 1⟩ : Vec3 α)
      (Vec3.normalize (Vec3.sub (exTopLight : Light α).position ⟨0, 0, -4⟩)) < 0 := by
  have hv : Vec3.sub (exTopLight : Light α).position ⟨0, 0, -4⟩ = ⟨0, 5, -1⟩ := by
    simp only [exTopLight, Vec3.sub]
    norm_num
  have hl : Vec3.length (⟨0, 5, -1⟩ : Vec3 α) = GLScalar.sqrt 26 := by
    simp only [Vec3.length, Vec3.dot]
    norm_num
  have hpos : (0 : α) < GLScalar.sqrt 26 := sqrt_pos_of_pos 26 (by norm_num)
  have he : Vec3.dot (⟨0, 0, 1⟩ : Vec3 α)
      (Vec3.normalize (Vec3.sub (exTopLight : Light α).position ⟨0, 0, -4⟩))
      = -1 / GLScalar.sqrt 26 := by
    rw [hv]
    simp only [Vec3.normalize, hl, Vec3.dot, zero_mul, zero_add, one_mul]
  refine ⟨he, ?_⟩
  rw [he]
  exact div_neg_of_neg_of_pos (by norm_num) hpos

theorem diffuseTerm_concrete (n : α) :
    diffuseTerm (exWhite n) ⟨0, 0, -4⟩ ⟨0, 0, 1⟩ (exTopLight : Light α) = ⟨0, 0, 0⟩ := by
  have h := (@dot_norm_lightDir_concrete α _ _).2
  simp only [diffuseTerm, max_eq_left (le_of_lt h), Vec3.smul, zero_mul]

theorem specularTerm_concrete (n : α) (viewDir : Vec3 α) :
    specularTerm (exWhite n) ⟨0, 0, -4⟩ ⟨0, 0, 1⟩ viewDir (exTopLight : Light α)
      = ⟨0, 0, 0⟩ := by
  simp only [specularTerm, exWhite, Vec3.muls, zero_mul]

theorem lightTerm_concrete (n : α) (viewDir : Vec3 α) :
    lightTerm (exWhite n) ⟨0, 0, -4⟩ ⟨0, 0, 1⟩ viewDir (exTopLight : Light α)
      = ⟨0, 0, 0⟩ := by
  rw [lightTerm_eq, diffuseTerm_concrete, specularTerm_concrete]
  simp only [Vec3.mul, Vec3.add, add_zero, mul_zero]

/-- An iteration of `Shade` whose light term is `(0,0,0)` leaves the colour as it is. -/
theorem shadeStep_of_lightTerm_zero (spheres : List (Sphere α)) (mtl : Material α)
    (position norm viewDir color : Vec3 α) (light : Light α)
    (h : lightTerm mtl position norm viewDir light = ⟨0, 0, 0⟩) :
    shadeStep spheres mtl position norm viewDir color light = color := by
  have h0 : Vec3.add color ⟨0, 0, 0⟩ = color := Vec3.add_zero_right color
  unfold shadeStep
  simp only [h, h0, ite_self]

theorem Shade_concrete (n : α) (bounceLimit : Int) (maxBounces : Nat) (view : Vec3 α) :
    Shade (exDiffuseScene n bounceLimit maxBounces) (exWhite n) ⟨0, 0, -4⟩ ⟨0, 0, 1⟩ view
      = ⟨0, 0, 0⟩ := by
  simp only [Shade, exDiffuseScene, List.foldl_cons, List.foldl_nil, normalize_z_pos]
  rw [shadeStep_of_lightTerm_zero _ _ _ _ _ _ _ (lightTerm_concrete n _)]
  rfl

/-- The run of `RayTracer` on the concrete scenario. -/
theorem RayTracer_concrete (n : α) (bounceLimit : Int) (maxBounces : Nat) :
    RayTracer (exDiffuseScene n bounceLimit maxBounces) (exRay : Ray α) = ⟨⟨0, 0, 0⟩, 1⟩ := by
  have hI : IntersectRay (exDiffuseScene n bounceLimit maxBounces).spheres HitInfo.uninit
      (exRay : Ray α) = (true, ⟨4, ⟨0, 0, -4⟩, ⟨0, 0, 1⟩, exWhite n⟩) :=
    IntersectRay_concrete (exWhite n) _
  have hsum : (⟨4, ⟨0, 0, -4⟩, ⟨0, 0, 1⟩, exWhite n⟩ : HitInfo α).mtl.k_s.x
      + (⟨4, ⟨0, 0, -4⟩, ⟨0, 0, 1⟩, exWhite n⟩ : HitInfo α).mtl.k_s.y
      + (⟨4, ⟨0, 0, -4⟩, ⟨0, 0, 1⟩, exWhite n⟩ : HitInfo α).mtl.k_s.z ≤ 0 := by
    simp [exWhite]
  unfold RayTracer finalState
  simp only [hI, if_true]
  rw [bounceLoop_primary_specular _ _ _ _ _ hsum]
  simp only [primaryState, Shade_concrete]

end ConcreteScenario

section Attenuation

variable {α : Type} [LinearOrderedField α] [GLScalar α]

theorem Vec3.mul_zero_right (v : Vec3 α) : Vec3.mul v ⟨0, 0, 0⟩ = ⟨0, 0, 0⟩ := by
  simp only [Vec3.mul, mul_zero]

theorem Vec3.mul_zero_left (v : Vec3 α) : Vec3.mul ⟨0, 0, 0⟩ v = ⟨0, 0, 0⟩ := by
  simp only [Vec3.mul, zero_mul]

theorem Vec3.add_zero_lit (v : Vec3 α) : Vec3.add v ⟨0, 0, 0⟩ = v :=
  Vec3.add_zero_right v

/-- Once the running product is `(0,0,0)` the loop of `RayTracer` adds nothing to the
colour. -/
theorem bounceLoop_clr_of_k_s_zero (sc : Scene α) (hit : HitInfo α) (remaining bounce : Nat)
    (st : BounceState α) (hk : st.k_s = ⟨0, 0, 0⟩) :
    (bounceLoop sc hit remaining bounce st).clr = st.clr := by
  induction remaining generalizing bounce st with
  | zero => rfl
  | succ n ih =>
    by_cases h1 : sc.bounceLimit ≤ (bounce : Int)
    · rw [bounceLoop_limit sc hit _ _ st h1]
    · by_cases h2 : hit.mtl.k_s.x + hit.mtl.k_s.y + hit.mtl.k_s.z ≤ 0
      · rw [bounceLoop_primary_specular sc hit _ _ st h2]
      · simp only [bounceLoop, h1, h2, if_false]
        by_cases h3 : (IntersectRay sc.spheres HitInfo.uninit (reflectionRay st)).1 = true
        · simp only [h3, if_true]
          rw [ih]
          · simp only [hk, Vec3.mul_zero_right, Vec3.add_zero_lit]
          · simp only [hk, Vec3.mul_zero_left]
        · simp only [Bool.not_eq_true] at h3
          simp only [h3, Bool.false_eq_true, if_false, hk, Vec3.mul_zero_left,
            Vec3.add_zero_lit]

/-- A non-negative vector with non-positive channel sum is `(0,0,0)`. -/
theorem eq_zero_of_nonneg_of_sum_le (v : Vec3 α) (hv : Vec3.Nonneg v)
    (hs : v.x + v.y + v.z ≤ 0) : v = ⟨0, 0, 0⟩ := by
  obtain ⟨h1, h2, h3⟩ := hv
  ext
  · show v.x = 0
    linarith
  · show v.y = 0
    linarith
  · show v.z = 0
    linarith

theorem Vec3.Nonneg.mul {u v : Vec3 α} (hu : Vec3.Nonneg u) (hv : Vec3.Nonneg v) :
    Vec3.Nonneg (Vec3.mul u v) :=
  ⟨mul_nonneg hu.1 hv.1, mul_nonneg hu.2.1 hv.2.1, mul_nonneg hu.2.2 hv.2.2⟩

/-- The material of a reported hit is the material of a sphere of the scene. -/
theorem IntersectRay_mtl_mem (spheres : List (Sphere α)) (hit : HitInfo α) (ray : Ray α)
    (hfound : (IntersectRay spheres hit ray).1 = true) :
    ∃ s ∈ spheres, (IntersectRay spheres hit ray).2.mtl = s.mtl := by
  rcases IntersectRay_spec spheres hit ray with ⟨he, _⟩ | ⟨s, hs, _, he, _⟩
  · rw [he] at hfound; cases hfound
  · exact ⟨s, hs, by rw [he]; rfl⟩

theorem bounceLoopRunning_stop (sc : Scene α) (remaining bounce : Nat) (st : BounceState α)
    (h : st.k_s.x + st.k_s.y + st.k_s.z ≤ 0) :
    bounceLoopRunning sc remaining bounce st = st := by
  cases remaining with
  | zero => rfl
  | succ n =>
    by_cases hb : sc.bounceLimit ≤ (bounce : Int)
    · simp only [bounceLoopRunning, hb, if_true]
    · simp only [bounceLoopRunning, hb, h, if_true, if_false]

/-- With non-negative specular coefficients and a primary hit whose specular channel sum
is positive, the loop of `RayTracer` and the loop testing the running product accumulate
the same colour. -/
theorem bounceLoop_clr_eq_running (sc : Scene α) (hit : HitInfo α)
    (hnn : ∀ s ∈ sc.spheres, Vec3.Nonneg s.mtl.k_s)
    (hpos : ¬ hit.mtl.k_s.x + hit.mtl.k_s.y + hit.mtl.k_s.z ≤ 0)
    (remaining bounce : Nat) (st : BounceState α) (hst : Vec3.Nonneg st.k_s) :
    (bounceLoop sc hit remaining bounce st).clr
      = (bounceLoopRunning sc remaining bounce st).clr := by
  induction remaining generalizing bounce st with
  | zero => rfl
  | succ n ih =>
    by_cases h1 : sc.bounceLimit ≤ (bounce : Int)
    · rw [bounceLoop_limit sc hit _ _ st h1]
      simp only [bounceLoopRunning, h1, if_true]
    · by_cases h2 : st.k_s.x + st.k_s.y + st.k_s.z ≤ 0
      · rw [bounceLoopRunning_stop sc _ _ st h2]
        exact bounceLoop_clr_of_k_s_zero sc hit _ _ st
          (eq_zero_of_nonneg_of_sum_le st.k_s hst h2)
      · simp only [bounceLoop, bounceLoopRunning, h1, h2, hpos, if_false]
        by_cases h3 : (IntersectRay sc.spheres HitInfo.uninit (reflectionRay st)).1 = true
        · simp only [h3, if_true]
          obtain ⟨s, hs, hm⟩ := IntersectRay_mtl_mem sc.spheres HitInfo.uninit
            (reflectionRay st) h3
          apply ih
          show Vec3.Nonneg (Vec3.mul st.k_s
            (IntersectRay sc.spheres HitInfo.uninit (reflectionRay st)).2.mtl.k_s)
          rw [hm]
          exact hst.mul (hnn s hs)
        · simp only [Bool.not_eq_true] at h3
          simp only [h3, Bool.false_eq_true, if_false]

end Attenuation

section Reference

variable {α : Type} [LinearOrderedField α] [GLScalar α]

/-- The loop of `RayTracer`, when the specular coefficient of the primary hit has a
positive channel sum, is the reference recurrence with the environment sampled at
`r.xzy`, run for `min(remaining, bounceLimit - bounce)` iterations. -/
theorem bounceLoop_eq_referenceTrace (sc : Scene α) (hit : HitInfo α)
    (hpos : ¬ hit.mtl.k_s.x + hit.mtl.k_s.y + hit.mtl.k_s.z ≤ 0)
    (remaining bounce : Nat) (st : BounceState α) :
    bounceLoop sc hit remaining bounce st
      = referenceTrace sc (fun d => sc.envMap (Vec3.xzy d))
          (min remaining (sc.bounceLimit - (bounce : Int)).toNat) st := by
  induction remaining generalizing bounce st with
  | zero => simp only [bounceLoop, Nat.zero_min, referenceTrace]
  | succ n ih =>
    by_cases h1 : sc.bounceLimit ≤ (bounce : Int)
    · have h0 : (sc.bounceLimit - (bounce : Int)).toNat = 0 := by omega
      rw [bounceLoop_limit sc hit _ _ st h1, h0, Nat.min_zero]
      rfl
    · have hm : min (n + 1) (sc.bounceLimit - (bounce : Int)).toNat
          = min n (sc.bounceLimit - ((bounce + 1 : Nat) : Int)).toNat + 1 := by
        push_cast
        omega
      rw [hm]
      simp only [bounceLoop, referenceTrace, h1, hpos, if_false, reflectionRay]
      by_cases h3 : (IntersectRay sc.spheres HitInfo.uninit
          ⟨st.poss, Vec3.sub (Vec3.smul (2 * Vec3.dot st.view st.norm) st.norm) st.view⟩).1
          = true
      · simp only [h3, if_true]
        exact ih (bounce + 1) _
      · simp only [Bool.not_eq_true] at h3
        simp only [h3, Bool.false_eq_true, if_false]

/-- The colour accumulated by `RayTracer` for a primary hit is the colour of the reference
recurrence with the environment sampled at `r.xzy`. -/
theorem finalState_clr_eq_reference (sc : Scene α) (ray : Ray α) (hit : HitInfo α) :
    (finalState sc ray hit).clr
      = referenceColour sc (fun d => sc.envMap (Vec3.xzy d)) ray hit := by
  unfold finalState referenceColour permittedBounces
  by_cases hsum : hit.mtl.k_s.x + hit.mtl.k_s.y + hit.mtl.k_s.z ≤ 0
  · rw [bounceLoop_primary_specular sc hit _ _ _ hsum]
    simp only [hsum, if_true, referenceTrace, primaryState]
  · rw [bounceLoop_eq_referenceTrace sc hit hsum]
    have hn : min sc.MAX_BOUNCES (sc.bounceLimit - ((0 : Nat) : Int)).toNat
        = (min (sc.MAX_BOUNCES : Int) sc.bounceLimit).toNat := by
      simp only [Nat.cast_zero, sub_zero]
      omega
    simp only [hsum, if_false, hn, primaryState]

theorem IntersectRay_exReflect_exMirror (hit : HitInfo α) :
    (IntersectRay [exMirror] hit (exReflect : Ray α)).1 = false := by
  have e1 : intersectStep (exReflect : Ray α) (false, { hit with t := huge }) exMirror
      = (false, { hit with t := huge }) :=
    intersectStep_reject _ _ _
      (not_lt.2 (nearRoot_nonpos_of_on_sphere _ _ exReflect_dir_ne_zero exReflect_on_exMirror))
  unfold IntersectRay
  rw [List.foldl_cons, List.foldl_nil, e1]

theorem IntersectRay_exMirrorScene :
    IntersectRay (exMirrorScene : Scene α).spheres HitInfo.uninit exRay
      = (true, ⟨4, ⟨0, 0, -4⟩, ⟨0, 0, 1⟩, exMirror.mtl⟩) :=
  IntersectRay_concrete _ _

theorem primaryState_exMirrorScene :
    primaryState (exMirrorScene : Scene α) exRay ⟨4, ⟨0, 0, -4⟩, ⟨0, 0, 1⟩, exMirror.mtl⟩
      = exState0 := by
  have hview : Vec3.normalize (Vec3.neg (exRay : Ray α).dir) = ⟨0, 0, 1⟩ := by
    have : Vec3.neg (exRay : Ray α).dir = ⟨0, 0, 1⟩ := by
      simp only [Vec3.neg, exRay, neg_zero, neg_neg]
    rw [this, normalize_z_pos]
  simp only [primaryState, hview, exState0, Shade, exMirrorScene, List.foldl_nil, Vec3.zero,
    exMirror]

/-- The run of `RayTracer` on the mirror sphere alone: the reflection ray misses and the
environment is sampled at `(0,0,1).xzy = (0,1,0)`. -/
theorem RayTracer_exMirrorScene :
    RayTracer (exMirrorScene : Scene α) exRay = ⟨⟨0, 1, 0⟩, 1⟩ := by
  have h1 : ¬ (exMirrorScene : Scene α).bounceLimit ≤ ((0 : Nat) : Int) := by
    simp [exMirrorScene]
  have h2 : ¬ (exMirror : Sphere α).mtl.k_s.x + (exMirror : Sphere α).mtl.k_s.y
      + (exMirror : Sphere α).mtl.k_s.z ≤ 0 := by
    simp only [exMirror]; norm_num
  have hsp : (exMirrorScene : Scene α).spheres = [exMirror] := rfl
  have hmb : (exMirrorScene : Scene α).MAX_BOUNCES = 1 := rfl
  unfold RayTracer finalState
  simp only [IntersectRay_exMirrorScene, if_true, primaryState_exMirrorScene, hmb]
  simp only [bounceLoop, h1, h2, if_false, reflectionRay_exState0, hsp,
    IntersectRay_exReflect_exMirror, Bool.false_eq_true]
  simp only [exState0, exMirrorScene, exReflect, Vec3.xzy, Vec3.mul, Vec3.add]
  norm_num

/-- The reference recurrence on the mirror sphere alone, with the environment sampled in
the direction of the reflection ray itself, `(0,0,1)`. -/
theorem referenceColour_exMirrorScene :
    referenceColour (exMirrorScene : Scene α) (exMirrorScene : Scene α).envMap exRay
      ⟨4, ⟨0, 0, -4⟩, ⟨0, 0, 1⟩, exMirror.mtl⟩ = ⟨0, 0, 1⟩ := by
  have h2 : ¬ (exMirror : Sphere α).mtl.k_s.x + (exMirror : Sphere α).mtl.k_s.y
      + (exMirror : Sphere α).mtl.k_s.z ≤ 0 := by
    simp only [exMirror]; norm_num
  have hp : permittedBounces (exMirrorScene : Scene α)
      ⟨4, ⟨0, 0, -4⟩, ⟨0, 0, 1⟩, exMirror.mtl⟩ = 1 := by
    simp only [permittedBounces, h2, if_false, exMirrorScene]
    rfl
  have hst := @primaryState_exMirrorScene α _ _
  simp only [primaryState] at hst
  have hr := @reflectionRay_exState0 α _ _
  simp only [reflectionRay] at hr
  have hsp : (exMirrorScene : Scene α).spheres = [exMirror] := rfl
  unfold referenceColour
  simp only [hp, hst, referenceTrace]
  rw [hr, hsp]
  simp only [IntersectRay_exReflect_exMirror, Bool.false_eq_true, if_false]
  have hd : Vec3.sub (Vec3.smul (2 * Vec3.dot (exState0 : BounceState α).view
      (exState0 : BounceState α).norm) (exState0 : BounceState α).norm)
      (exState0 : BounceState α).view = ⟨0, 0, 1⟩ := congrArg Ray.dir hr
  rw [hd]
  simp only [exState0, exMirrorScene, Vec3.mul, Vec3.add]
  norm_num

end Reference

section Explicit

variable {α : Type} [LinearOrderedField α] [GLScalar α]

/-- The acceptance test of the scan written out in coordinates: `sphere` is accepted with
near root `t` exactly when, for `a = dot(d, d)`, `b = dot(2 d, p - c)` and
`c = dot(p - c, p - c) - r * r`, the discriminant `b * b - 4 * a * c` is non-negative,
`t = (-b - sqrt(b * b - 4 * a * c)) / (2 * a)` and `0 < t < 10 ^ 30`. -/
theorem accepted_iff_explicit (ray : Ray α) (s : Sphere α) (t : α) :
    (Accepted ray s ∧ nearRoot ray s = t) ↔
    ∃ a b c : α,
      a = ray.dir.x * ray.dir.x + ray.dir.y * ray.dir.y + ray.dir.z * ray.dir.z ∧
      b = 2 * ray.dir.x * (ray.pos.x - s.center.x) + 2 * ray.dir.y * (ray.pos.y - s.center.y)
        + 2 * ray.dir.z * (ray.pos.z - s.center.z) ∧
      c = (ray.pos.x - s.center.x) * (ray.pos.x - s.center.x)
        + (ray.pos.y - s.center.y) * (ray.pos.y - s.center.y)
        + (ray.pos.z - s.center.z) * (ray.pos.z - s.center.z) - s.radius * s.radius ∧
      0 ≤ b * b - 4 * a * c ∧
      t = (-b - GLScalar.sqrt (b * b - 4 * a * c)) / (2 * a) ∧
      0 < t ∧ t < 10 ^ 30 := by
  have hA : quadA ray
      = ray.dir.x * ray.dir.x + ray.dir.y * ray.dir.y + ray.dir.z * ray.dir.z := rfl
  have hB : quadB ray s
      = 2 * ray.dir.x * (ray.pos.x - s.center.x) + 2 * ray.dir.y * (ray.pos.y - s.center.y)
        + 2 * ray.dir.z * (ray.pos.z - s.center.z) := rfl
  have hC : quadC ray s
      = (ray.pos.x - s.center.x) * (ray.pos.x - s.center.x)
        + (ray.pos.y - s.center.y) * (ray.pos.y - s.center.y)
        + (ray.pos.z - s.center.z) * (ray.pos.z - s.center.z) - s.radius * s.radius := rfl
  have hD : delta ray s = quadB ray s * quadB ray s - 4 * quadA ray * quadC ray s := rfl
  have hN : nearRoot ray s
      = (-quadB ray s - GLScalar.sqrt (quadB ray s * quadB ray s
          - 4 * quadA ray * quadC ray s)) / (2 * quadA ray) := by
    unfold nearRoot
    rw [hD, neg_one_mul]
  constructor
  · rintro ⟨⟨hd, hp, hlt⟩, ht⟩
    refine ⟨quadA ray, quadB ray s, quadC ray s, hA, hB, hC, ?_, ?_, ?_, ?_⟩
    · rw [← hD]; exact hd
    · rw [← ht, hN]
    · rw [← ht]; exact hp
    · rw [← ht]; exact hlt
  · rintro ⟨a, b, c, ha, hb, hc, hd, ht, hp, hlt⟩
    rw [← hA] at ha
    rw [← hB] at hb
    rw [← hC] at hc
    subst ha hb hc
    have hn : nearRoot ray s = t := by rw [hN, ht]
    refine ⟨⟨?_, ?_, ?_⟩, hn⟩
    · rw [hD]; exact hd
    · rw [hn]; exact hp
    · rw [hn]; exact hlt

end Explicit

section Checked

variable {α : Type} [LinearOrderedField α] [GLScalar α]

theorem lightTermChecked_eq_some (mtl : Material α) (position normal view : Vec3 α)
    (light : Light α) (t : Vec3 α)
    (h : lightTermChecked mtl position normal view light = some t) :
    t = lightTerm mtl position (Vec3.normalize normal) (Vec3.normalize view) light := by
  unfold lightTermChecked at h
  split at h
  · cases h
  · exact (Option.some.inj h).symm

theorem bind_map_add_eq_some (oc ot : Option (Vec3 α)) (c' : Vec3 α)
    (h : (oc.bind fun c => ot.map (Vec3.add c)) = some c') :
    ∃ c0 t, oc = some c0 ∧ ot = some t ∧ c' = Vec3.add c0 t := by
  cases oc with
  | none => cases h
  | some c0 =>
    cases ot with
    | none => cases h
    | some t => exact ⟨c0, t, rfl, rfl, (Option.some.inj h).symm⟩

/-- Where the checked iteration is defined it is the iteration of `Shade`. -/
theorem shadeStepChecked_eq_some (spheres : List (Sphere α)) (mtl : Material α)
    (position normal view : Vec3 α) (oc : Option (Vec3 α)) (light : Light α) (c' : Vec3 α)
    (h : shadeStepChecked spheres mtl position normal view oc light = some c') :
    ∃ c0, oc = some c0 ∧
      c' = shadeStep spheres mtl position (Vec3.normalize normal) (Vec3.normalize view)
        c0 light := by
  unfold shadeStepChecked at h
  unfold shadeStep
  simp only at h ⊢
  by_cases h1 : (IntersectRay spheres HitInfo.uninit (shadowRay position light)).1 = true
  · by_cases h2 : bias < (IntersectRay spheres HitInfo.uninit (shadowRay position light)).2.t ∧
        (IntersectRay spheres HitInfo.uninit (shadowRay position light)).2.t
          < lightT position light
    · simp only [h1, h2, and_self, if_true] at h ⊢
      exact ⟨c', h, rfl⟩
    · simp only [h1, h2, if_true, if_false] at h ⊢
      obtain ⟨c0, t, e1, e2, e3⟩ := bind_map_add_eq_some _ _ _ h
      exact ⟨c0, e1, by rw [e3, lightTermChecked_eq_some _ _ _ _ _ _ e2]⟩
  · simp only [Bool.not_eq_true] at h1
    simp only [h1, Bool.false_eq_true, if_false] at h ⊢
    obtain ⟨c0, t, e1, e2, e3⟩ := bind_map_add_eq_some _ _ _ h
    exact ⟨c0, e1, by rw [e3, lightTermChecked_eq_some _ _ _ _ _ _ e2]⟩

theorem foldl_shadeStepChecked_eq_some (spheres : List (Sphere α)) (mtl : Material α)
    (position normal view : Vec3 α) (lights : List (Light α)) (oc : Option (Vec3 α))
    (c : Vec3 α)
    (h : lights.foldl (shadeStepChecked spheres mtl position normal view) oc = some c) :
    ∃ c0, oc = some c0 ∧
      c = lights.foldl
        (shadeStep spheres mtl position (Vec3.normalize normal) (Vec3.normalize view)) c0 := by
  induction lights generalizing oc with
  | nil => exact ⟨c, h, rfl⟩
  | cons l ls ih =>
    rw [List.foldl_cons] at h
    obtain ⟨c1, e1, e2⟩ := ih _ h
    obtain ⟨c0, e3, e4⟩ := shadeStepChecked_eq_some _ _ _ _ _ _ _ _ e1
    exact ⟨c0, e3, by rw [List.foldl_cons, ← e4]; exact e2⟩

/-- Where `ShadeChecked` is defined its value is that of `Shade`. -/
theorem ShadeChecked_eq_some (sc : Scene α) (mtl : Material α)
    (position normal view c : Vec3 α)
    (h : ShadeChecked sc mtl position normal view = some c) :
    c = Shade sc mtl position normal view := by
  obtain ⟨c0, e1, e2⟩ := foldl_shadeStepChecked_eq_some _ _ _ _ _ _ _ _ h
  rw [← Option.some.inj e1] at e2
  exact e2

/-- The checked term of the occluded light at `(0,4,0)` for normal and view `(0,1,0)`. -/
theorem lightTermChecked_exLight :
    lightTermChecked (exMtl : Material α) ⟨0, 0, 0⟩ ⟨0, 1, 0⟩ ⟨0, 1, 0⟩ exLight
      = some ⟨1, 1, 1⟩ := by
  have hn : Vec3.normalize (⟨0, 1, 0⟩ : Vec3 α) = ⟨0, 1, 0⟩ := normalize_y 1 one_pos
  have hs : Vec3.sub (exLight : Light α).position ⟨0, 0, 0⟩ = ⟨0, 4, 0⟩ := by
    simp only [exLight, Vec3.sub, sub_zero]
  have hl : Vec3.normalize (⟨0, 4, 0⟩ : Vec3 α) = ⟨0, 1, 0⟩ := normalize_y 4 (by norm_num)
  have h1 : (⟨0, 4, 0⟩ : Vec3 α) ≠ Vec3.zero := by
    intro h
    have := congrArg Vec3.y h
    simp [Vec3.zero] at this
  have h2 : Vec3.add (⟨0, 1, 0⟩ : Vec3 α) ⟨0, 1, 0⟩ ≠ Vec3.zero := by
    intro h
    have := congrArg Vec3.y h
    simp [Vec3.zero, Vec3.add] at this
  unfold lightTermChecked
  rw [hs, hl, hn]
  simp only [unit_y_ne_zero, h1, h2, or_self, if_false, lightTerm_exLight]

theorem shadeStepChecked_exLight (normal : Vec3 α) (oc : Option (Vec3 α)) :
    shadeStepChecked [exOccluder] (exMtl : Material α) ⟨0, 0, 0⟩ normal ⟨0, 1, 0⟩ oc exLight
      = oc.bind fun c =>
          (lightTermChecked exMtl ⟨0, 0, 0⟩ normal ⟨0, 1, 0⟩ exLight).map (Vec3.add c) := by
  obtain ⟨h1, h2⟩ := IntersectRay_exShadow (HitInfo.uninit : HitInfo α)
  have hnot : ¬ ((bias : α) < 1 / 4 ∧ (1 / 4 : α) < 0) := by
    intro h
    have := h.2
    norm_num at this
  simp only [shadeStepChecked, h1, h2, lightT_exLight, hnot, if_true, if_false]

theorem ShadeChecked_exTwoLightScene :
    ShadeChecked (exTwoLightScene : Scene α) exMtl ⟨0, 0, 0⟩ ⟨0, 1, 0⟩ ⟨0, 1, 0⟩
      = some ⟨2, 2, 2⟩ := by
  simp only [ShadeChecked, exTwoLightScene, List.foldl_cons, List.foldl_nil,
    shadeStepChecked_exLight, lightTermChecked_exLight, Option.bind, Option.map, Vec3.add,
    Vec3.zero]
  norm_num

/-- At the normal `(0,0,0)` the term of the light at `(0,4,0)`, which is not shadowed by
the test of `Shade`, is undefined, and so is the colour. -/
theorem ShadeChecked_zero_normal :
    ShadeChecked (exShadowScene : Scene α) exMtl ⟨0, 0, 0⟩ ⟨0, 0, 0⟩ ⟨0, 1, 0⟩ = none := by
  have ht : lightTermChecked (exMtl : Material α) ⟨0, 0, 0⟩ ⟨0, 0, 0⟩ ⟨0, 1, 0⟩ exLight
      = none := by
    unfold lightTermChecked
    simp only [Vec3.zero, true_or, if_true]
  simp only [ShadeChecked, exShadowScene, List.foldl_cons, List.foldl_nil,
    shadeStepChecked_exLight, ht, Option.bind, Option.map]

end Checked

section CheckedDefined

variable {α : Type} [LinearOrderedField α] [GLScalar α]

theorem length_zero_vec : Vec3.length (⟨0, 0, 0⟩ : Vec3 α) = 0 := by
  have h := sqrt_mul_self_of_nonneg (0 : α) (le_refl 0)
  simp only [Vec3.length, Vec3.dot, mul_zero, add_zero]
  rwa [mul_zero] at h

theorem lightTermChecked_of_ne (mtl : Material α) (position normal view : Vec3 α)
    (light : Light α) (hn : normal ≠ Vec3.zero) (hv : view ≠ Vec3.zero)
    (hl : Vec3.sub light.position position ≠ Vec3.zero)
    (hh : Vec3.add (Vec3.normalize (Vec3.sub light.position position)) (Vec3.normalize view)
      ≠ Vec3.zero) :
    lightTermChecked mtl position normal view light
      = some (lightTerm mtl position (Vec3.normalize normal) (Vec3.normalize view) light) := by
  unfold lightTermChecked
  simp only [hn, hv, hl, hh, or_self, if_false]

theorem shadeStepChecked_of_ne (spheres : List (Sphere α)) (mtl : Material α)
    (position normal view c : Vec3 α) (light : Light α)
    (hn : normal ≠ Vec3.zero) (hv : view ≠ Vec3.zero)
    (hl : Vec3.sub light.position position ≠ Vec3.zero)
    (hh : Vec3.add (Vec3.normalize (Vec3.sub light.position position)) (Vec3.normalize view)
      ≠ Vec3.zero) :
    shadeStepChecked spheres mtl position normal view (some c) light
      = some (shadeStep spheres mtl position (Vec3.normalize normal) (Vec3.normalize view)
          c light) := by
  unfold shadeStepChecked shadeStep
  simp only [lightTermChecked_of_ne mtl position normal view light hn hv hl hh,
    Option.bind, Option.map]
  split
  · split
    · rfl
    · rfl
  · rfl

theorem foldl_shadeStepChecked_of_ne (spheres : List (Sphere α)) (mtl : Material α)
    (position normal view : Vec3 α) (lights : List (Light α))
    (hn : normal ≠ Vec3.zero) (hv : view ≠ Vec3.zero)
    (hl : ∀ l ∈ lights, Vec3.sub l.position position ≠ Vec3.zero ∧
      Vec3.add (Vec3.normalize (Vec3.sub l.position position)) (Vec3.normalize view)
        ≠ Vec3.zero)
    (c : Vec3 α) :
    lights.foldl (shadeStepChecked spheres mtl position normal view) (some c)
      = some (lights.foldl
          (shadeStep spheres mtl position (Vec3.normalize normal) (Vec3.normalize view)) c) := by
  induction lights generalizing c with
  | nil => rfl
  | cons l ls ih =>
    obtain ⟨h1, h2⟩ := hl l (List.mem_cons_self _ _)
    rw [List.foldl_cons, List.foldl_cons,
      shadeStepChecked_of_ne spheres mtl position normal view c l hn hv h1 h2]
    exact ih (fun l' hl' => hl l' (List.mem_cons_of_mem _ hl')) _

end CheckedDefined

section Claims

variable {α : Type} [LinearOrderedField α] [GLScalar α]

/-- C1: for a ray with non-zero direction, with `a = dot(d, d)`, `b = dot(2 d, p - c)` and
`c = dot(p - c, p - c) - r * r` written out in coordinates for each sphere, `IntersectRay`
reports a hit exactly when some sphere has discriminant `b * b - 4 * a * c >= 0` and near
root `t = (-b - sqrt(b * b - 4 * a * c)) / (2 * a)` with `0 < t < 1e30`; and when it
reports a hit, `hit.t` is such a near root of some sphere and is at most every such near
root of every sphere, so it is their minimum. -/
theorem IntersectRay_nearest (spheres : List (Sphere α)) (hit : HitInfo α) (ray : Ray α)
    (_hdir : ray.dir ≠ Vec3.zero) :
    ((IntersectRay spheres hit ray).1 = true ↔
      ∃ s ∈ spheres, ∃ t a b c : α,
        a = ray.dir.x * ray.dir.x + ray.dir.y * ray.dir.y + ray.dir.z * ray.dir.z ∧
        b = 2 * ray.dir.x * (ray.pos.x - s.center.x)
          + 2 * ray.dir.y * (ray.pos.y - s.center.y)
          + 2 * ray.dir.z * (ray.pos.z - s.center.z) ∧
        c = (ray.pos.x - s.center.x) * (ray.pos.x - s.center.x)
          + (ray.pos.y - s.center.y) * (ray.pos.y - s.center.y)
          + (ray.pos.z - s.center.z) * (ray.pos.z - s.center.z) - s.radius * s.radius ∧
        0 ≤ b * b - 4 * a * c ∧
        t = (-b - GLScalar.sqrt (b * b - 4 * a * c)) / (2 * a) ∧
        0 < t ∧ t < 10 ^ 30) ∧
    ((IntersectRay spheres hit ray).1 = true →
      (∃ s ∈ spheres, ∃ a b c : α,
        a = ray.dir.x * ray.dir.x + ray.dir.y * ray.dir.y + ray.dir.z * ray.dir.z ∧
        b = 2 * ray.dir.x * (ray.pos.x - s.center.x)
          + 2 * ray.dir.y * (ray.pos.y - s.center.y)
          + 2 * ray.dir.z * (ray.pos.z - s.center.z) ∧
        c = (ray.pos.x - s.center.x) * (ray.pos.x - s.center.x)
          + (ray.pos.y - s.center.y) * (ray.pos.y - s.center.y)
          + (ray.pos.z - s.center.z) * (ray.pos.z - s.center.z) - s.radius * s.radius ∧
        0 ≤ b * b - 4 * a * c ∧
        (IntersectRay spheres hit ray).2.t
          = (-b - GLScalar.sqrt (b * b - 4 * a * c)) / (2 * a) ∧
        0 < (IntersectRay spheres hit ray).2.t ∧
        (IntersectRay spheres hit ray).2.t < 10 ^ 30 ∧
        (IntersectRay spheres hit ray).2 = hitOf ray s) ∧
      ∀ s ∈ spheres, ∀ t a b c : α,
        a = ray.dir.x * ray.dir.x + ray.dir.y * ray.dir.y + ray.dir.z * ray.dir.z →
        b = 2 * ray.dir.x * (ray.pos.x - s.center.x)
          + 2 * ray.dir.y * (ray.pos.y - s.center.y)
          + 2 * ray.dir.z * (ray.pos.z - s.center.z) →
        c = (ray.pos.x - s.center.x) * (ray.pos.x - s.center.x)
          + (ray.pos.y - s.center.y) * (ray.pos.y - s.center.y)
          + (ray.pos.z - s.center.z) * (ray.pos.z - s.center.z) - s.radius * s.radius →
        0 ≤ b * b - 4 * a * c →
        t = (-b - GLScalar.sqrt (b * b - 4 * a * c)) / (2 * a) →
        0 < t → t < 10 ^ 30 →
        (IntersectRay spheres hit ray).2.t ≤ t) := by
  rcases IntersectRay_spec spheres hit ray with ⟨he, hno⟩ | ⟨s, hs, ha, he, hmin⟩
  · rw [he]
    refine ⟨⟨fun h => (by cases h), ?_⟩, fun h => (by cases h)⟩
    rintro ⟨s, hs, t, a, b, c, h⟩
    exact absurd ((accepted_iff_explicit ray s t).2 ⟨a, b, c, h⟩).1 (hno s hs)
  · rw [he]
    obtain ⟨a, b, c, h1, h2, h3, h4, h5, h6, h7⟩ :=
      (accepted_iff_explicit ray s (nearRoot ray s)).1 ⟨ha, rfl⟩
    refine ⟨⟨fun _ => ⟨s, hs, nearRoot ray s, a, b, c, h1, h2, h3, h4, h5, h6, h7⟩,
      fun _ => rfl⟩, fun _ => ⟨⟨s, hs, a, b, c, h1, h2, h3, h4, h5, h6, h7, rfl⟩, ?_⟩⟩
    intro s' hs' t a' b' c' e1 e2 e3 e4 e5 e6 e7
    obtain ⟨hacc, hn⟩ := (accepted_iff_explicit ray s' t).2 ⟨a', b', c', e1, e2, e3, e4, e5, e6, e7⟩
    rw [← hn]
    exact hmin s' hs' hacc

/-- Witness of C1 on the concrete scenario over the reals: the hit is reported, with
`a = 1`, `b = -10`, `c = 24`, discriminant `4` and near root `4`. -/
theorem IntersectRay_nearest_witness :
    (exRay : Ray ℝ).dir ≠ Vec3.zero ∧
    (IntersectRay [exSphere] HitInfo.uninit (exRay : Ray ℝ)).1 = true ∧
    (IntersectRay [exSphere] HitInfo.uninit (exRay : Ray ℝ)).2.t = 4 ∧
    ∃ s ∈ [(exSphere : Sphere ℝ)], ∃ a b c : ℝ,
      a = (exRay : Ray ℝ).dir.x * (exRay : Ray ℝ).dir.x
        + (exRay : Ray ℝ).dir.y * (exRay : Ray ℝ).dir.y
        + (exRay : Ray ℝ).dir.z * (exRay : Ray ℝ).dir.z ∧
      b = 2 * (exRay : Ray ℝ).dir.x * ((exRay : Ray ℝ).pos.x - s.center.x)
        + 2 * (exRay : Ray ℝ).dir.y * ((exRay : Ray ℝ).pos.y - s.center.y)
        + 2 * (exRay : Ray ℝ).dir.z * ((exRay : Ray ℝ).pos.z - s.center.z) ∧
      c = ((exRay : Ray ℝ).pos.x - s.center.x) * ((exRay : Ray ℝ).pos.x - s.center.x)
        + ((exRay : Ray ℝ).pos.y - s.center.y) * ((exRay : Ray ℝ).pos.y - s.center.y)
        + ((exRay : Ray ℝ).pos.z - s.center.z) * ((exRay : Ray ℝ).pos.z - s.center.z)
        - s.radius * s.radius ∧
      0 ≤ b * b - 4 * a * c ∧
      (IntersectRay [exSphere] HitInfo.uninit (exRay : Ray ℝ)).2.t
        = (-b - GLScalar.sqrt (b * b - 4 * a * c)) / (2 * a) ∧
      0 < (IntersectRay [exSphere] HitInfo.uninit (exRay : Ray ℝ)).2.t ∧
      (IntersectRay [exSphere] HitInfo.uninit (exRay : Ray ℝ)).2.t < 10 ^ 30 ∧
      (IntersectRay [exSphere] HitInfo.uninit (exRay : Ray ℝ)).2 = hitOf exRay s :=
  ⟨exRay_dir_ne_zero, by rw [IntersectRay_exRay],
    by rw [IntersectRay_exRay]; exact nearRoot_exRay_exSphere,
    ((IntersectRay_nearest [exSphere] HitInfo.uninit (exRay : Ray ℝ) exRay_dir_ne_zero).2
      (by rw [IntersectRay_exRay])).1⟩

/-- Counterexample to C2 as stated: for the ray that starts at the centre of the sphere
(centre `(0,0,-5)`, radius `1`) in direction `(0,0,-1)`, `t = 1` is a strictly positive
real root of the quadratic, yet `IntersectRay` reports no hit. -/
theorem IntersectRay_ignores_far_root :
    (exInsideRay : Ray ℝ).dir ≠ Vec3.zero ∧
    (∃ s ∈ [(exSphere : Sphere ℝ)], ∃ t : ℝ, 0 < t ∧ IsRoot exInsideRay s t) ∧
    (IntersectRay [exSphere] HitInfo.uninit (exInsideRay : Ray ℝ)).1 = false := by
  refine ⟨?_, ⟨exSphere, List.mem_singleton_self _, 1, one_pos, isRoot_exInsideRay⟩,
    IntersectRay_exInsideRay _⟩
  intro h
  have h3 := congrArg Vec3.z h
  simp [exInsideRay, Vec3.zero] at h3

/-- C2 (amended): for a ray with non-zero direction whose origin lies strictly outside
every sphere, whenever `IntersectRay` reports a hit, `hit.t` is strictly positive, is a
real root of the quadratic of some sphere, and is at most every strictly positive real
root of the quadratic of every sphere; and if some sphere has a strictly positive real
root below `1e30`, a hit is reported. -/
theorem IntersectRay_min_positive_root (spheres : List (Sphere α)) (hit : HitInfo α)
    (ray : Ray α) (hdir : ray.dir ≠ Vec3.zero)
    (hout : ∀ s ∈ spheres, s.radius * s.radius <
      Vec3.dot (Vec3.sub ray.pos s.center) (Vec3.sub ray.pos s.center)) :
    ((IntersectRay spheres hit ray).1 = true →
      0 < (IntersectRay spheres hit ray).2.t ∧
      (∃ s ∈ spheres, IsRoot ray s (IntersectRay spheres hit ray).2.t) ∧
      ∀ s ∈ spheres, ∀ t : α, 0 < t → IsRoot ray s t →
        (IntersectRay spheres hit ray).2.t ≤ t) ∧
    ((∃ s ∈ spheres, ∃ t : α, 0 < t ∧ t < huge ∧ IsRoot ray s t) →
      (IntersectRay spheres hit ray).1 = true) := by
  have hc : ∀ s ∈ spheres, 0 < quadC ray s := by
    intro s hs
    have := hout s hs
    unfold quadC
    linarith
  have key : ∀ s ∈ spheres, ∀ t : α, 0 < t → IsRoot ray s t →
      0 ≤ delta ray s ∧ 0 < nearRoot ray s ∧ nearRoot ray s ≤ t := by
    intro s hs t ht0 ht
    obtain ⟨hd, hle⟩ := root_ge_nearRoot ray s hdir t ht
    exact ⟨hd, nearRoot_pos_of_root ray s hdir (hc s hs) t ht0 ht, hle⟩
  obtain ⟨_, _, h3⟩ := foldl_intersectStep ray spheres (false, { hit with t := huge })
  rcases IntersectRay_spec spheres hit ray with ⟨he, hno⟩ | ⟨s, hs, ha, he, _⟩
  · refine ⟨fun h => ?_, fun ⟨s, hs, t, ht0, hth, ht⟩ => ?_⟩
    · rw [he] at h; cases h
    · exfalso
      obtain ⟨hd, hp, hle⟩ := key s hs t ht0 ht
      exact hno s hs ⟨hd, hp, lt_of_le_of_lt hle hth⟩
  · refine ⟨fun _ => ⟨?_, ⟨s, hs, ?_⟩, ?_⟩, fun _ => by rw [he]⟩
    · rw [he]; exact ha.2.1
    · rw [he]; exact nearRoot_isRoot ray s hdir ha.1
    · intro s' hs' t ht0 ht
      obtain ⟨hd, hp, hle⟩ := key s' hs' t ht0 ht
      exact le_trans (h3 s' hs' hd hp) hle

/-- Witness of the amended C2 on the concrete scenario over the reals. -/
theorem IntersectRay_min_positive_root_witness :
    (IntersectRay [exSphere] HitInfo.uninit (exRay : Ray ℝ)).1 = true ∧
    ((IntersectRay [exSphere] HitInfo.uninit (exRay : Ray ℝ)).1 = true →
      0 < (IntersectRay [exSphere] HitInfo.uninit (exRay : Ray ℝ)).2.t ∧
      (∃ s ∈ [exSphere],
        IsRoot exRay s (IntersectRay [exSphere] HitInfo.uninit (exRay : Ray ℝ)).2.t) ∧
      ∀ s ∈ [exSphere], ∀ t : ℝ, 0 < t → IsRoot exRay s t →
        (IntersectRay [exSphere] HitInfo.uninit (exRay : Ray ℝ)).2.t ≤ t) :=
  ⟨by rw [IntersectRay_exRay],
    (IntersectRay_min_positive_root [exSphere] HitInfo.uninit (exRay : Ray ℝ)
      exRay_dir_ne_zero (by
        intro s hs
        rw [List.mem_singleton.1 hs]
        simp only [exRay, exSphere, Vec3.dot, Vec3.sub]
        norm_num)).1⟩

/-- C3: for a ray with non-zero direction, if `IntersectRay` reports a hit, then the
record is the one computed from an accepted sphere `S`, `hit.position` is
`ray.pos + hit.t * ray.dir`, and the squared distance of `hit.position` from the centre
of `S` equals the squared radius of `S`. -/
theorem hit_position_on_sphere (spheres : List (Sphere α)) (hit : HitInfo α) (ray : Ray α)
    (hdir : ray.dir ≠ Vec3.zero) (hfound : (IntersectRay spheres hit ray).1 = true) :
    ∃ s ∈ spheres, Accepted ray s ∧ (IntersectRay spheres hit ray).2 = hitOf ray s ∧
      (IntersectRay spheres hit ray).2.position =
        Vec3.add ray.pos (Vec3.smul (IntersectRay spheres hit ray).2.t ray.dir) ∧
      Vec3.dot (Vec3.sub (IntersectRay spheres hit ray).2.position s.center)
        (Vec3.sub (IntersectRay spheres hit ray).2.position s.center)
        = s.radius * s.radius := by
  rcases IntersectRay_spec spheres hit ray with ⟨he, _⟩ | ⟨s, hs, ha, he, _⟩
  · rw [he] at hfound; cases hfound
  · refine ⟨s, hs, ha, by rw [he], by rw [he]; rfl, ?_⟩
    rw [he]
    exact hitOf_on_sphere ray s hdir ha.1

/-- Witness of C3 on the concrete scenario over the reals. -/
theorem hit_position_on_sphere_witness :
    ∃ s ∈ [(exSphere : Sphere ℝ)], Accepted exRay s ∧
      (IntersectRay [exSphere] HitInfo.uninit (exRay : Ray ℝ)).2 = hitOf exRay s ∧
      (IntersectRay [exSphere] HitInfo.uninit (exRay : Ray ℝ)).2.position =
        Vec3.add (exRay : Ray ℝ).pos
          (Vec3.smul (IntersectRay [exSphere] HitInfo.uninit (exRay : Ray ℝ)).2.t
            (exRay : Ray ℝ).dir) ∧
      Vec3.dot
        (Vec3.sub (IntersectRay [exSphere] HitInfo.uninit (exRay : Ray ℝ)).2.position s.center)
        (Vec3.sub (IntersectRay [exSphere] HitInfo.uninit (exRay : Ray ℝ)).2.position s.center)
        = s.radius * s.radius :=
  hit_position_on_sphere [exSphere] HitInfo.uninit (exRay : Ray ℝ) exRay_dir_ne_zero
    (by rw [IntersectRay_exRay])

/-- C4: for a scene whose spheres have non-zero radius and a ray with non-zero direction,
if `IntersectRay` reports a hit then the record is the one computed from an accepted
sphere `S`, `hit.normal` has length exactly `1`, and
`dot(hit.normal, hit.position - S.center) > 0`. -/
theorem hit_normal_unit_outward (spheres : List (Sphere α)) (hit : HitInfo α) (ray : Ray α)
    (hrad : ∀ s ∈ spheres, s.radius ≠ 0) (hdir : ray.dir ≠ Vec3.zero)
    (hfound : (IntersectRay spheres hit ray).1 = true) :
    ∃ s ∈ spheres, Accepted ray s ∧ (IntersectRay spheres hit ray).2 = hitOf ray s ∧
      Vec3.length (IntersectRay spheres hit ray).2.normal = 1 ∧
      0 < Vec3.dot (IntersectRay spheres hit ray).2.normal
        (Vec3.sub (IntersectRay spheres hit ray).2.position s.center) := by
  rcases IntersectRay_spec spheres hit ray with ⟨he, _⟩ | ⟨s, hs, ha, he, _⟩
  · rw [he] at hfound; cases hfound
  · obtain ⟨_, h2, h3⟩ := normalize_unit (Vec3.sub (hitOf ray s).position s.center)
      s.radius (hrad s hs) (hitOf_on_sphere ray s hdir ha.1)
    refine ⟨s, hs, ha, by rw [he], ?_, ?_⟩
    · rw [he]; exact h2
    · rw [he]; exact h3

/-- Witness of C4 on the concrete scenario over the reals. -/
theorem hit_normal_unit_outward_witness :
    ∃ s ∈ [(exSphere : Sphere ℝ)], Accepted exRay s ∧
      (IntersectRay [exSphere] HitInfo.uninit (exRay : Ray ℝ)).2 = hitOf exRay s ∧
      Vec3.length (IntersectRay [exSphere] HitInfo.uninit (exRay : Ray ℝ)).2.normal = 1 ∧
      0 < Vec3.dot (IntersectRay [exSphere] HitInfo.uninit (exRay : Ray ℝ)).2.normal
        (Vec3.sub (IntersectRay [exSphere] HitInfo.uninit (exRay : Ray ℝ)).2.position
          s.center) :=
  hit_normal_unit_outward [exSphere] HitInfo.uninit (exRay : Ray ℝ)
    (by
      intro s hs
      rw [List.mem_singleton.1 hs]
      simp [exSphere])
    exRay_dir_ne_zero (by rw [IntersectRay_exRay])

/-- Counterexample to C5 as stated: in the scene without spheres whose environment map
returns the direction it is sampled in, the ray with direction `(0,1,0)` has no hit, and
the colour of `RayTracer` is `(0,0,1)`, not the environment map at `ray.dir`, which is
`(0,1,0)`. -/
theorem envMap_sampled_swizzled :
    (IntersectRay (exEmptyScene : Scene ℝ).spheres HitInfo.uninit exUpRay).1 = false ∧
    (RayTracer (exEmptyScene : Scene ℝ) exUpRay).rgb = ⟨0, 0, 1⟩ ∧
    (RayTracer (exEmptyScene : Scene ℝ) exUpRay).rgb ≠
      (exEmptyScene : Scene ℝ).envMap (exUpRay : Ray ℝ).dir := by
  refine ⟨rfl, rfl, ?_⟩
  intro h
  have hy := congrArg Vec3.y h
  simp [RayTracer, IntersectRay, exEmptyScene, exUpRay, Vec3.xzy] at hy

/-- C5 (amended): for every ray for which `IntersectRay` reports no hit, `RayTracer`
returns the environment map sampled at `ray.dir.xzy`, the ray direction with its `y` and
`z` components exchanged, with alpha `0`, whatever `bounceLimit`, the lights and the
materials are. -/
theorem RayTracer_miss (sc : Scene α) (ray : Ray α)
    (hmiss : (IntersectRay sc.spheres HitInfo.uninit ray).1 = false) :
    RayTracer sc ray = ⟨sc.envMap ⟨ray.dir.x, ray.dir.z, ray.dir.y⟩, 0⟩ := by
  unfold RayTracer
  simp only [hmiss, Bool.false_eq_true, if_false, Vec3.xzy]

/-- Witness of the amended C5 on the ray from the centre of the sphere of the concrete
scenario, over the reals. -/
theorem RayTracer_miss_witness :
    (IntersectRay (exScene 3 5 : Scene ℝ).spheres HitInfo.uninit exInsideRay).1 = false ∧
    RayTracer (exScene 3 5 : Scene ℝ) exInsideRay =
      ⟨(exScene 3 5 : Scene ℝ).envMap
        ⟨(exInsideRay : Ray ℝ).dir.x, (exInsideRay : Ray ℝ).dir.z,
          (exInsideRay : Ray ℝ).dir.y⟩, 0⟩ :=
  ⟨IntersectRay_exInsideRay _,
    RayTracer_miss (exScene 3 5 : Scene ℝ) exInsideRay (IntersectRay_exInsideRay _)⟩

/-- C6: when the primary intersection is a hit and `bounceLimit = 0`, `RayTracer` returns
`Shade( hit.mtl, hit.position, hit.normal, normalize(-ray.dir) )` with alpha `1` and casts
no reflection ray, whatever the materials are. -/
theorem RayTracer_bounceLimit_zero (sc : Scene α) (ray : Ray α)
    (hfound : (IntersectRay sc.spheres HitInfo.uninit ray).1 = true)
    (hlimit : sc.bounceLimit = 0) :
    RayTracer sc ray =
      ⟨Shade sc (IntersectRay sc.spheres HitInfo.uninit ray).2.mtl
        (IntersectRay sc.spheres HitInfo.uninit ray).2.position
        (IntersectRay sc.spheres HitInfo.uninit ray).2.normal
        (Vec3.normalize (Vec3.neg ray.dir)), 1⟩ ∧
    reflectionRaysCast sc ray = 0 := by
  have hb : sc.bounceLimit ≤ ((0 : Nat) : Int) := by rw [hlimit]; exact le_refl _
  unfold RayTracer reflectionRaysCast finalState
  simp only [hfound, if_true]
  rw [bounceLoop_limit sc _ _ _ _ hb]
  exact ⟨rfl, rfl⟩

/-- Witness of C6 on the concrete scenario over the reals, with `MAX_BOUNCES = 5`. -/
theorem RayTracer_bounceLimit_zero_witness :
    (IntersectRay (exScene 0 5 : Scene ℝ).spheres HitInfo.uninit exRay).1 = true ∧
    reflectionRaysCast (exScene 0 5 : Scene ℝ) exRay = 0 :=
  ⟨by rw [exScene, IntersectRay_exRay],
    (RayTracer_bounceLimit_zero (exScene 0 5 : Scene ℝ) exRay
      (by rw [exScene, IntersectRay_exRay]) rfl).2⟩

/-- C7: when the material of the primary hit has specular coefficient `(0,0,0)`, the
colour `RayTracer` returns is exactly `Shade` of the primary hit, for every bounce limit,
and no reflection ray is cast. -/
theorem RayTracer_diffuse (sc : Scene α) (ray : Ray α)
    (hfound : (IntersectRay sc.spheres HitInfo.uninit ray).1 = true)
    (hks : (IntersectRay sc.spheres HitInfo.uninit ray).2.mtl.k_s = Vec3.zero) :
    (RayTracer sc ray).rgb =
      Shade sc (IntersectRay sc.spheres HitInfo.uninit ray).2.mtl
        (IntersectRay sc.spheres HitInfo.uninit ray).2.position
        (IntersectRay sc.spheres HitInfo.uninit ray).2.normal
        (Vec3.normalize (Vec3.neg ray.dir)) ∧
    reflectionRaysCast sc ray = 0 := by
  have hsum : (IntersectRay sc.spheres HitInfo.uninit ray).2.mtl.k_s.x
      + (IntersectRay sc.spheres HitInfo.uninit ray).2.mtl.k_s.y
      + (IntersectRay sc.spheres HitInfo.uninit ray).2.mtl.k_s.z ≤ 0 := by
    rw [hks]; simp [Vec3.zero]
  unfold RayTracer reflectionRaysCast finalState
  simp only [hfound, if_true]
  rw [bounceLoop_primary_specular sc _ _ _ _ hsum]
  exact ⟨rfl, rfl⟩

/-- Witness of C7 on the concrete scenario over the reals, with bounce limit `3`. -/
theorem RayTracer_diffuse_witness :
    (IntersectRay (exScene 3 5 : Scene ℝ).spheres HitInfo.uninit exRay).1 = true ∧
    reflectionRaysCast (exScene 3 5 : Scene ℝ) exRay = 0 :=
  ⟨by rw [exScene, IntersectRay_exRay],
    (RayTracer_diffuse (exScene 3 5 : Scene ℝ) exRay
      (by rw [exScene, IntersectRay_exRay])
      (by rw [exScene, IntersectRay_exRay]; rfl)).2⟩

/-- C8: `RayTracer` casts at most `min(MAX_BOUNCES, bounceLimit)` reflection rays, none
when `bounceLimit <= 0`, and the value it returns with bounce limit `b` is the value it
returns with bounce limit `min(MAX_BOUNCES, b)`. -/
theorem RayTracer_bounce_bound (sc : Scene α) (ray : Ray α) :
    ((reflectionRaysCast sc ray : Int) ≤ max 0 (min (sc.MAX_BOUNCES : Int) sc.bounceLimit)) ∧
    (sc.bounceLimit ≤ 0 → reflectionRaysCast sc ray = 0) ∧
    RayTracer sc ray =
      RayTracer { sc with bounceLimit := min (sc.MAX_BOUNCES : Int) sc.bounceLimit } ray := by
  have hcast : reflectionRaysCast sc ray ≤
      min sc.MAX_BOUNCES (sc.bounceLimit - ((0 : Nat) : Int)).toNat := by
    unfold reflectionRaysCast finalState
    by_cases hf : (IntersectRay sc.spheres HitInfo.uninit ray).1 = true
    · simp only [hf, if_true]
      have h := bounceLoop_casts_le sc (IntersectRay sc.spheres HitInfo.uninit ray).2
        sc.MAX_BOUNCES 0 (primaryState sc ray (IntersectRay sc.spheres HitInfo.uninit ray).2)
      simpa [primaryState] using h
    · simp only [Bool.not_eq_true] at hf
      simp only [hf, Bool.false_eq_true, if_false]
      exact Nat.zero_le _
  refine ⟨?_, ?_, ?_⟩
  · simp only [Nat.cast_zero, sub_zero] at hcast
    omega
  · intro hle
    have : (sc.bounceLimit - ((0 : Nat) : Int)).toNat = 0 := by
      simp only [Nat.cast_zero, sub_zero]; omega
    rw [this] at hcast
    omega
  · unfold RayTracer finalState
    by_cases hf : (IntersectRay sc.spheres HitInfo.uninit ray).1 = true
    · simp only [hf, if_true]
      have hl := bounceLoop_congr sc
        { sc with bounceLimit := min (sc.MAX_BOUNCES : Int) sc.bounceLimit } rfl rfl rfl
        (IntersectRay sc.spheres HitInfo.uninit ray).2 sc.MAX_BOUNCES
        (by intro k hk; simp only; omega) sc.MAX_BOUNCES 0 (by omega)
        (primaryState sc ray (IntersectRay sc.spheres HitInfo.uninit ray).2)
      rw [hl]
      rfl
    · simp only [Bool.not_eq_true] at hf
      simp only [hf, Bool.false_eq_true, if_false]

/-- Counterexample to C9 as stated: on the mirror sphere facing the diffuse sphere, with
`bounceLimit = MAX_BOUNCES = 2`, the primary ray hits the mirror, the running attenuation
`k_s` at the head of the second iteration is `(0,0,0)`, and the loop nevertheless casts a
second reflection ray: two reflection rays are cast in all. -/
theorem attenuation_check_ignores_running_product :
    IntersectRay (exTwoScene : Scene ℝ).spheres HitInfo.uninit exRay
      = (true, hitOf exRay exMirror) ∧
    finalState (exTwoScene : Scene ℝ) exRay (hitOf exRay exMirror)
      = bounceLoop exTwoScene (hitOf exRay exMirror) 1 1 exState1 ∧
    (exState1 : BounceState ℝ).k_s.x + (exState1 : BounceState ℝ).k_s.y
      + (exState1 : BounceState ℝ).k_s.z ≤ 0 ∧
    bounceLoop (exTwoScene : Scene ℝ) (hitOf exRay exMirror) 1 1 exState1 ≠ exState1 ∧
    reflectionRaysCast (exTwoScene : Scene ℝ) exRay = 2 := by
  obtain ⟨h1, h2, h3⟩ := @exTwoScene_run ℝ _ _
  refine ⟨h1, h2, by simp [exState1], ?_, ?_⟩
  · intro h
    rw [h] at h3
    omega
  · unfold reflectionRaysCast
    simp only [h1, if_true]
    rw [h2, h3]
    rfl

/-- C9 (amended): in every iteration of the reflection loop, if the specular coefficient
of the primary hit, `hit.mtl.k_s`, has channel sum `<= 0`, the loop stops before casting a
reflection ray and leaves every loop variable, the accumulated colour included, as it is;
`RayTracer` then returns the colour accumulated on entry to the loop. -/
theorem bounceLoop_attenuation_exit (sc : Scene α) (ray : Ray α) (hit : HitInfo α)
    (remaining bounce : Nat) (st : BounceState α)
    (hsum : hit.mtl.k_s.x + hit.mtl.k_s.y + hit.mtl.k_s.z ≤ 0) :
    bounceLoop sc hit remaining bounce st = st ∧
    finalState sc ray hit = primaryState sc ray hit :=
  ⟨bounceLoop_primary_specular sc hit remaining bounce st hsum,
    bounceLoop_primary_specular sc hit _ _ _ hsum⟩

/-- Witness of the amended C9 on the concrete scenario over the reals. -/
theorem bounceLoop_attenuation_exit_witness :
    bounceLoop (exScene 3 5 : Scene ℝ) (hitOf exRay exSphere) 5 0 exState0 = exState0 ∧
    finalState (exScene 3 5 : Scene ℝ) exRay (hitOf exRay exSphere)
      = primaryState (exScene 3 5) exRay (hitOf exRay exSphere) :=
  bounceLoop_attenuation_exit (exScene 3 5 : Scene ℝ) exRay (hitOf exRay exSphere) 5 0
    exState0 (by simp [hitOf, exSphere, exMtl])

/-- C10 (evaluation at the failing input): the shaded point is the origin, the light is
at `(0,4,0)` and the sphere of centre `(0,2,0)` and radius `1` lies between them: the
shadow ray hits it at `t = 1/4`, with `1e-7 < 1/4 < 1`.  `Shade` nevertheless returns the
full contribution `(1,1,1)` of the light, where the scene without the light gives
`(0,0,0)`. -/
theorem Shade_adds_occluded_light :
    (IntersectRay (exShadowScene : Scene ℝ).spheres HitInfo.uninit
      (shadowRay ⟨0, 0, 0⟩ exLight)).1 = true ∧
    (IntersectRay (exShadowScene : Scene ℝ).spheres HitInfo.uninit
      (shadowRay ⟨0, 0, 0⟩ exLight)).2.t = 1 / 4 ∧
    (bias : ℝ) < 1 / 4 ∧ (1 / 4 : ℝ) < 1 ∧
    Shade (exShadowScene : Scene ℝ) exMtl ⟨0, 0, 0⟩ ⟨0, 1, 0⟩ ⟨0, 1, 0⟩ = ⟨1, 1, 1⟩ ∧
    Shade ({ (exShadowScene : Scene ℝ) with lights := [] }) exMtl ⟨0, 0, 0⟩ ⟨0, 1, 0⟩ ⟨0, 1, 0⟩
      = ⟨0, 0, 0⟩ :=
  ⟨(IntersectRay_exShadow _).1, (IntersectRay_exShadow _).2, bias_lt_quarter, by norm_num,
    Shade_exShadowScene, rfl⟩

/-- C11: for a non-zero normal and a non-zero view, `Shade` returns the sum over all
lights of the contribution `c_i`: `(0,0,0)` when the shadow ray reports a hit with
`1e-7 < hit.t < light_t`, `light_t = (light.position.x - position.x) / direction.x`, and
otherwise `light.intensity * (max(0, dot(n, l)) * k_d + k_s * max(0, dot(n, h))^shininess)`
with `n = normalize(normal)`, `l = normalize(light.position - position)` and
`h = normalize(l + normalize(view))`. -/
theorem Shade_eq_sum_of_contributions (sc : Scene α) (mtl : Material α)
    (position normal view : Vec3 α) (_hn : normal ≠ Vec3.zero) (_hv : view ≠ Vec3.zero) :
    Shade sc mtl position normal view
      = vecSum (sc.lights.map (lightContribution sc mtl position normal view)) := by
  unfold Shade
  rw [foldl_shadeStep, Vec3.add_zero_left]

/-- Witness of C11 on the occluded light at `(0,4,0)` over the reals. -/
theorem Shade_eq_sum_of_contributions_witness :
    (⟨0, 1, 0⟩ : Vec3 ℝ) ≠ Vec3.zero ∧
    Shade (exShadowScene : Scene ℝ) exMtl ⟨0, 0, 0⟩ ⟨0, 1, 0⟩ ⟨0, 1, 0⟩
      = vecSum ((exShadowScene : Scene ℝ).lights.map
          (lightContribution exShadowScene exMtl ⟨0, 0, 0⟩ ⟨0, 1, 0⟩ ⟨0, 1, 0⟩)) :=
  ⟨unit_y_ne_zero,
    Shade_eq_sum_of_contributions (exShadowScene : Scene ℝ) exMtl ⟨0, 0, 0⟩ ⟨0, 1, 0⟩ ⟨0, 1, 0⟩
      unit_y_ne_zero unit_y_ne_zero⟩

/-- C18: whenever `light.position.x` differs from `position.x`, the value `lightT` that
`Shade` computes is exactly `1`, so the shadow condition `hit.t > bias && hit.t < lightT`
holds exactly when `1e-7 < hit.t < 1`. -/
theorem lightT_eq_one (position : Vec3 α) (light : Light α)
    (hx : light.position.x ≠ position.x) :
    lightT position light = 1 ∧
    ∀ t : α, (bias < t ∧ t < lightT position light) ↔ (1 / 10 ^ 7 < t ∧ t < 1) := by
  have hT : lightT position light = 1 := by
    simp only [lightT, shadowRay, Vec3.sub]
    exact div_self (sub_ne_zero.2 hx)
  refine ⟨hT, fun t => ?_⟩
  rw [hT]
  exact Iff.rfl

/-- Witness of C18 for the light at `(1,0,0)` and the shaded point `(0,0,0)` over the
reals. -/
theorem lightT_eq_one_witness :
    (exSideLight : Light ℝ).position.x ≠ (⟨0, 0, 0⟩ : Vec3 ℝ).x ∧
    lightT (⟨0, 0, 0⟩ : Vec3 ℝ) exSideLight = 1 :=
  ⟨by simp [exSideLight],
    (lightT_eq_one (⟨0, 0, 0⟩ : Vec3 ℝ) exSideLight (by simp [exSideLight])).1⟩

/-- Counterexample to C12 as stated: in the scene with the light at `(0,4,0)` of intensity
`(1,1,1)` and the white diffuse material, all coefficients non-negative, the normal
`(0,0,0)` has length `0`, so `Shade` normalises it by dividing `0` by `0`, the term of the
light is undefined and so is the colour: it is not a colour with channels `>= 0`. -/
theorem Shade_undefined_at_zero_normal :
    (∀ l ∈ (exShadowScene : Scene ℝ).lights, Vec3.Nonneg l.intensity) ∧
    Vec3.Nonneg (exMtl : Material ℝ).k_d ∧ Vec3.Nonneg (exMtl : Material ℝ).k_s ∧
    Vec3.length (⟨0, 0, 0⟩ : Vec3 ℝ) = 0 ∧
    ShadeChecked (exShadowScene : Scene ℝ) exMtl ⟨0, 0, 0⟩ ⟨0, 0, 0⟩ ⟨0, 1, 0⟩ = none ∧
    ¬ ∃ c : Vec3 ℝ,
      ShadeChecked (exShadowScene : Scene ℝ) exMtl ⟨0, 0, 0⟩ ⟨0, 0, 0⟩ ⟨0, 1, 0⟩ = some c ∧
      0 ≤ c.x ∧ 0 ≤ c.y ∧ 0 ≤ c.z := by
  refine ⟨?_, by simp [Vec3.Nonneg, exMtl], by simp [Vec3.Nonneg, exMtl], length_zero_vec,
    ShadeChecked_zero_normal, ?_⟩
  · intro l hl
    simp only [exShadowScene, List.mem_singleton] at hl
    rw [hl]
    simp [Vec3.Nonneg, exLight]
  · rintro ⟨c, hc, _⟩
    rw [ShadeChecked_zero_normal] at hc
    cases hc

/-- C12 (amended): when the intensity of every light of the scene and the diffuse and
specular coefficients of the material are component-wise non-negative, then for every
position, non-zero normal and non-zero view such that, for every light,
`light.position - position` and `lightDir + viewDir` are non-zero, every vector `Shade`
normalises is non-zero, the colour is defined and is the result of `Shade`, and every
channel of it is `>= 0`. -/
theorem Shade_nonneg (sc : Scene α) (mtl : Material α) (position normal view : Vec3 α)
    (hi : ∀ l ∈ sc.lights, Vec3.Nonneg l.intensity)
    (hd : Vec3.Nonneg mtl.k_d) (hs : Vec3.Nonneg mtl.k_s)
    (hn : normal ≠ Vec3.zero) (hv : view ≠ Vec3.zero)
    (hl : ∀ l ∈ sc.lights, Vec3.sub l.position position ≠ Vec3.zero ∧
      Vec3.add (Vec3.normalize (Vec3.sub l.position position)) (Vec3.normalize view)
        ≠ Vec3.zero) :
    ShadeChecked sc mtl position normal view = some (Shade sc mtl position normal view) ∧
    0 ≤ (Shade sc mtl position normal view).x ∧
    0 ≤ (Shade sc mtl position normal view).y ∧
    0 ≤ (Shade sc mtl position normal view).z :=
  ⟨foldl_shadeStepChecked_of_ne sc.spheres mtl position normal view sc.lights hn hv hl
      Vec3.zero,
    foldl_shadeStep_nonneg sc.spheres mtl position _ _ sc.lights hi hd hs Vec3.zero
      ⟨le_refl _, le_refl _, le_refl _⟩⟩

/-- Witness of the amended C12 over the reals on the scene with two copies of the light at
`(0,4,0)`, where every channel of the result is `2`: the result is not clamped to `1`. -/
theorem Shade_nonneg_witness :
    Shade (exTwoLightScene : Scene ℝ) exMtl ⟨0, 0, 0⟩ ⟨0, 1, 0⟩ ⟨0, 1, 0⟩ = ⟨2, 2, 2⟩ ∧
    ShadeChecked (exTwoLightScene : Scene ℝ) exMtl ⟨0, 0, 0⟩ ⟨0, 1, 0⟩ ⟨0, 1, 0⟩
      = some (Shade (exTwoLightScene : Scene ℝ) exMtl ⟨0, 0, 0⟩ ⟨0, 1, 0⟩ ⟨0, 1, 0⟩) ∧
    0 ≤ (Shade (exTwoLightScene : Scene ℝ) exMtl ⟨0, 0, 0⟩ ⟨0, 1, 0⟩ ⟨0, 1, 0⟩).x ∧
    0 ≤ (Shade (exTwoLightScene : Scene ℝ) exMtl ⟨0, 0, 0⟩ ⟨0, 1, 0⟩ ⟨0, 1, 0⟩).y ∧
    0 ≤ (Shade (exTwoLightScene : Scene ℝ) exMtl ⟨0, 0, 0⟩ ⟨0, 1, 0⟩ ⟨0, 1, 0⟩).z :=
  ⟨Shade_exTwoLightScene,
    Shade_nonneg (exTwoLightScene : Scene ℝ) exMtl ⟨0, 0, 0⟩ ⟨0, 1, 0⟩ ⟨0, 1, 0⟩
      (by
        intro l hl
        simp only [exTwoLightScene, List.mem_cons, List.mem_singleton, or_self,
          List.not_mem_nil, or_false] at hl
        rw [hl]
        simp [Vec3.Nonneg, exLight])
      (by simp [Vec3.Nonneg, exMtl])
      (by simp [Vec3.Nonneg, exMtl])
      unit_y_ne_zero unit_y_ne_zero
      (by
        intro l hl
        simp only [exTwoLightScene, List.mem_cons, List.mem_singleton, or_self,
          List.not_mem_nil, or_false] at hl
        rw [hl]
        have hs : Vec3.sub (exLight : Light ℝ).position ⟨0, 0, 0⟩ = ⟨0, 4, 0⟩ := by
          simp only [exLight, Vec3.sub, sub_zero]
        rw [hs, normalize_y 4 (by norm_num), normalize_y 1 one_pos]
        constructor
        · intro h
          have := congrArg Vec3.y h
          simp [Vec3.zero] at this
        · intro h
          have := congrArg Vec3.y h
          simp [Vec3.zero, Vec3.add] at this)⟩

/-- C13: for a non-zero normal `n`, a non-zero view `v` and scalars `j > 0`, `k > 0`,
`Shade(mtl, position, j*n, k*v) = Shade(mtl, position, n, v)`. -/
theorem Shade_scale_invariant (sc : Scene α) (mtl : Material α)
    (position normal view : Vec3 α) (j k : α)
    (_hn : normal ≠ Vec3.zero) (_hv : view ≠ Vec3.zero) (hj : 0 < j) (hk : 0 < k) :
    Shade sc mtl position (Vec3.smul j normal) (Vec3.smul k view)
      = Shade sc mtl position normal view := by
  unfold Shade
  rw [normalize_smul j normal hj, normalize_smul k view hk]

/-- Witness of C13 over the reals, with the normal scaled by `2` and the view by `3`. -/
theorem Shade_scale_invariant_witness :
    Shade (exShadowScene : Scene ℝ) exMtl ⟨0, 0, 0⟩
        (Vec3.smul 2 ⟨0, 1, 0⟩) (Vec3.smul 3 ⟨0, 1, 0⟩)
      = Shade (exShadowScene : Scene ℝ) exMtl ⟨0, 0, 0⟩ ⟨0, 1, 0⟩ ⟨0, 1, 0⟩ :=
  Shade_scale_invariant (exShadowScene : Scene ℝ) exMtl ⟨0, 0, 0⟩ ⟨0, 1, 0⟩ ⟨0, 1, 0⟩ 2 3
    unit_y_ne_zero unit_y_ne_zero (by norm_num) (by norm_num)

/-- C15: in the scene with the single sphere of centre `(0,0,-5)` and radius `1`, whatever
its material, and for the ray with origin `(0,0,0)` and direction `(0,0,-1)`,
`IntersectRay` reports a hit with `t = 4`, position `(0,0,-4)` and normal `(0,0,1)`. -/
theorem concrete_scenario_hit (mtl : Material α) :
    (IntersectRay [(⟨⟨0, 0, -5⟩, 1, mtl⟩ : Sphere α)] HitInfo.uninit
      (⟨⟨0, 0, 0⟩, ⟨0, 0, -1⟩⟩ : Ray α)).1 = true ∧
    (IntersectRay [(⟨⟨0, 0, -5⟩, 1, mtl⟩ : Sphere α)] HitInfo.uninit
      (⟨⟨0, 0, 0⟩, ⟨0, 0, -1⟩⟩ : Ray α)).2.t = 4 ∧
    (IntersectRay [(⟨⟨0, 0, -5⟩, 1, mtl⟩ : Sphere α)] HitInfo.uninit
      (⟨⟨0, 0, 0⟩, ⟨0, 0, -1⟩⟩ : Ray α)).2.position = ⟨0, 0, -4⟩ ∧
    (IntersectRay [(⟨⟨0, 0, -5⟩, 1, mtl⟩ : Sphere α)] HitInfo.uninit
      (⟨⟨0, 0, 0⟩, ⟨0, 0, -1⟩⟩ : Ray α)).2.normal = ⟨0, 0, 1⟩ := by
  have h := IntersectRay_concrete mtl (HitInfo.uninit : HitInfo α)
  unfold exRay at h
  rw [h]
  exact ⟨rfl, rfl, rfl, rfl⟩

/-- C17: when `IntersectRay` reports a hit, the sphere list splits as `l1 ++ S :: l2`
where `S` is accepted, its near root is the least accepted near root of the scene, every
accepted sphere before `S` has a strictly larger near root (so `S` is the lowest-index
sphere with the minimal root), and the record returned is the one computed from `S`:
position, normal and the material of `S`, field for field. -/
theorem IntersectRay_lowest_index (spheres : List (Sphere α)) (hit : HitInfo α) (ray : Ray α)
    (hfound : (IntersectRay spheres hit ray).1 = true) :
    ∃ l1 s l2, spheres = l1 ++ s :: l2 ∧ Accepted ray s ∧
      (∀ s' ∈ spheres, Accepted ray s' → nearRoot ray s ≤ nearRoot ray s') ∧
      (∀ s' ∈ l1, Accepted ray s' → nearRoot ray s < nearRoot ray s') ∧
      (IntersectRay spheres hit ray).2 = hitOf ray s ∧
      (IntersectRay spheres hit ray).2.mtl.k_d = s.mtl.k_d ∧
      (IntersectRay spheres hit ray).2.mtl.k_s = s.mtl.k_s ∧
      (IntersectRay spheres hit ray).2.mtl.n = s.mtl.n := by
  have hex : ∃ s ∈ spheres, Improves ray huge s := by
    rcases IntersectRay_spec spheres hit ray with ⟨he, _⟩ | ⟨s, hs, ha, _, _⟩
    · rw [he] at hfound; cases hfound
    · exact ⟨s, hs, ha⟩
  obtain ⟨l1, s, l2, hl, hi, hf, hb, ha⟩ :=
    foldl_intersectStep_first ray spheres (false, { hit with t := huge }) hex
  have hres : IntersectRay spheres hit ray = (true, hitOf ray s) := hf
  refine ⟨l1, s, l2, hl, hi, ?_, fun s' hs' hacc => hb s' hs' hacc.1 hacc.2.1, ?_, ?_, ?_, ?_⟩
  · intro s' hs' hacc
    rw [hl] at hs'
    rcases List.mem_append.1 hs' with h1 | h2
    · exact le_of_lt (hb s' h1 hacc.1 hacc.2.1)
    · rcases List.mem_cons.1 h2 with rfl | h3
      · exact le_refl _
      · exact ha s' h3 hacc.1 hacc.2.1
  · rw [hres]
  · rw [hres]; rfl
  · rw [hres]; rfl
  · rw [hres]; rfl

/-- Witness of C17 over the reals: the mirror sphere and the diffuse sphere of the
concrete scenario have the same centre and radius, and the material returned is that of
the first of them. -/
theorem IntersectRay_lowest_index_witness :
    (IntersectRay [exMirror, exSphere] HitInfo.uninit (exRay : Ray ℝ)).2.mtl
      = (exMirror : Sphere ℝ).mtl ∧
    ∃ l1 s l2, [(exMirror : Sphere ℝ), exSphere] = l1 ++ s :: l2 ∧ Accepted exRay s ∧
      (∀ s' ∈ [(exMirror : Sphere ℝ), exSphere], Accepted exRay s' →
        nearRoot exRay s ≤ nearRoot exRay s') ∧
      (∀ s' ∈ l1, Accepted exRay s' → nearRoot exRay s < nearRoot exRay s') ∧
      (IntersectRay [exMirror, exSphere] HitInfo.uninit (exRay : Ray ℝ)).2 = hitOf exRay s ∧
      (IntersectRay [exMirror, exSphere] HitInfo.uninit (exRay : Ray ℝ)).2.mtl.k_d
        = s.mtl.k_d ∧
      (IntersectRay [exMirror, exSphere] HitInfo.uninit (exRay : Ray ℝ)).2.mtl.k_s
        = s.mtl.k_s ∧
      (IntersectRay [exMirror, exSphere] HitInfo.uninit (exRay : Ray ℝ)).2.mtl.n = s.mtl.n :=
  ⟨by rw [IntersectRay_tie]; rfl,
    IntersectRay_lowest_index [exMirror, exSphere] HitInfo.uninit (exRay : Ray ℝ)
      (by rw [IntersectRay_tie])⟩

/-- C19: for a sphere `S`, a ray origin on the surface of `S` and a non-zero direction,
the near root `IntersectRay` computes for `S` is `<= 0`, so `S` is not accepted and the
iteration of the scan for `S` leaves the loop state as it is. -/
theorem no_hit_on_own_sphere (ray : Ray α) (s : Sphere α) (hdir : ray.dir ≠ Vec3.zero)
    (hon : Vec3.dot (Vec3.sub ray.pos s.center) (Vec3.sub ray.pos s.center)
      = s.radius * s.radius) :
    nearRoot ray s ≤ 0 ∧ ¬ Accepted ray s ∧
    ∀ st : Bool × HitInfo α, intersectStep ray st s = st := by
  have hle := nearRoot_nonpos_of_on_sphere ray s hdir hon
  exact ⟨hle, fun ha => absurd ha.2.1 (not_lt.2 hle),
    fun st => intersectStep_reject ray st s (not_lt.2 hle)⟩

/-- Witness of C19 over the reals: the reflection ray leaving the point `(0,0,-4)` of the
sphere of centre `(0,0,-5)` and radius `1`. -/
theorem no_hit_on_own_sphere_witness :
    nearRoot (exReflect : Ray ℝ) exMirror ≤ 0 ∧ ¬ Accepted (exReflect : Ray ℝ) exMirror ∧
    ∀ st : Bool × HitInfo ℝ, intersectStep exReflect st exMirror = st :=
  no_hit_on_own_sphere (exReflect : Ray ℝ) exMirror exReflect_dir_ne_zero
    exReflect_on_exMirror

/-- Counterexample to C14 as stated: in the concrete scenario (specular exponent `1`,
`bounceLimit = MAX_BOUNCES = 1`) the colour `RayTracer` returns is `(0,0,0)` and the
diffuse term of the light is `(0,0,0)`: no channel is strictly positive. -/
theorem concrete_scenario_not_lit :
    (RayTracer (exDiffuseScene 1 1 1 : Scene ℝ) exRay).rgb = ⟨0, 0, 0⟩ ∧
    diffuseTerm (exWhite 1) ⟨0, 0, -4⟩ ⟨0, 0, 1⟩ (exTopLight : Light ℝ) = ⟨0, 0, 0⟩ ∧
    ¬ (0 < (RayTracer (exDiffuseScene 1 1 1 : Scene ℝ) exRay).rgb.x ∧
      0 < (RayTracer (exDiffuseScene 1 1 1 : Scene ℝ) exRay).rgb.y ∧
      0 < (RayTracer (exDiffuseScene 1 1 1 : Scene ℝ) exRay).rgb.z) := by
  have h := RayTracer_concrete (1 : ℝ) 1 1
  refine ⟨by rw [h], diffuseTerm_concrete 1, ?_⟩
  rw [h]
  intro hpos
  exact lt_irrefl _ hpos.1

/-- C14 (amended): in the concrete scenario, for every specular exponent, bounce limit
and `MAX_BOUNCES`, `RayTracer` returns the colour `(0,0,0)` with alpha `1`: at the hit
point `(0,0,-4)` with normal `(0,0,1)` the light at `(0,5,-5)` lies behind the tangent
plane, `dot(n, l) = -1 / sqrt(26) < 0`, so the diffuse term is `(0,0,0)`, and the specular
term is `(0,0,0)`. -/
theorem concrete_scenario_colour (n : α) (bounceLimit : Int) (maxBounces : Nat)
    (viewDir : Vec3 α) :
    RayTracer (exDiffuseScene n bounceLimit maxBounces) (⟨⟨0, 0, 0⟩, ⟨0, 0, -1⟩⟩ : Ray α)
      = ⟨⟨0, 0, 0⟩, 1⟩ ∧
    Vec3.dot (⟨0, 0, 1⟩ : Vec3 α)
      (Vec3.normalize (Vec3.sub (exTopLight : Light α).position ⟨0, 0, -4⟩))
      = -1 / GLScalar.sqrt 26 ∧
    Vec3.dot (⟨0, 0, 1⟩ : Vec3 α)
      (Vec3.normalize (Vec3.sub (exTopLight : Light α).position ⟨0, 0, -4⟩)) < 0 ∧
    diffuseTerm (exWhite n) ⟨0, 0, -4⟩ ⟨0, 0, 1⟩ (exTopLight : Light α) = ⟨0, 0, 0⟩ ∧
    specularTerm (exWhite n) ⟨0, 0, -4⟩ ⟨0, 0, 1⟩ viewDir (exTopLight : Light α)
      = ⟨0, 0, 0⟩ :=
  ⟨RayTracer_concrete n bounceLimit maxBounces, dot_norm_lightDir_concrete.1,
    dot_norm_lightDir_concrete.2, diffuseTerm_concrete n, specularTerm_concrete n viewDir⟩

/-- C20: the attenuation test of `RayTracer` reads the specular coefficient of the primary
hit: whenever its channel sum is positive and the bounce limit is not reached, an
iteration casts a reflection ray whatever the running product `k_s` is.  In a scene whose
specular coefficients are all component-wise non-negative, `RayTracer` nevertheless
returns the value of the variant that tests the running product at each iteration. -/
theorem RayTracer_eq_running (sc : Scene α) (ray : Ray α)
    (hnn : ∀ s ∈ sc.spheres, Vec3.Nonneg s.mtl.k_s) :
    RayTracer sc ray = RayTracerRunning sc ray ∧
    ∀ (hit : HitInfo α) (bounce : Nat) (st : BounceState α),
      ¬ sc.bounceLimit ≤ (bounce : Int) →
      ¬ hit.mtl.k_s.x + hit.mtl.k_s.y + hit.mtl.k_s.z ≤ 0 →
      (bounceLoop sc hit 1 bounce st).casts = st.casts + 1 := by
  refine ⟨?_, fun hit bounce st h1 h2 => bounceLoop_one_casts sc hit bounce st h1 h2⟩
  unfold RayTracer RayTracerRunning finalState
  by_cases hf : (IntersectRay sc.spheres HitInfo.uninit ray).1 = true
  · simp only [hf, if_true]
    obtain ⟨s, hs, hm⟩ := IntersectRay_mtl_mem sc.spheres HitInfo.uninit ray hf
    have hk : Vec3.Nonneg
        (primaryState sc ray (IntersectRay sc.spheres HitInfo.uninit ray).2).k_s := by
      show Vec3.Nonneg (IntersectRay sc.spheres HitInfo.uninit ray).2.mtl.k_s
      rw [hm]
      exact hnn s hs
    by_cases hsum : (IntersectRay sc.spheres HitInfo.uninit ray).2.mtl.k_s.x
        + (IntersectRay sc.spheres HitInfo.uninit ray).2.mtl.k_s.y
        + (IntersectRay sc.spheres HitInfo.uninit ray).2.mtl.k_s.z ≤ 0
    · rw [bounceLoop_primary_specular sc _ _ _ _ hsum,
        bounceLoopRunning_stop sc _ _ _ hsum]
    · rw [bounceLoop_clr_eq_running sc _ hnn hsum _ _ _ hk]
  · simp only [Bool.not_eq_true] at hf
    simp only [hf, Bool.false_eq_true, if_false]

/-- Witness of C20 over the reals on the mirror sphere facing the diffuse sphere, where
the two loops cast a different number of rays. -/
theorem RayTracer_eq_running_witness :
    RayTracer (exTwoScene : Scene ℝ) exRay = RayTracerRunning (exTwoScene : Scene ℝ) exRay :=
  (RayTracer_eq_running (exTwoScene : Scene ℝ) exRay (by
    intro s hs
    simp only [exTwoScene, List.mem_cons, List.mem_singleton, List.not_mem_nil,
      or_false] at hs
    rcases hs with rfl | rfl
    · simp [Vec3.Nonneg, exMirror]
    · simp [Vec3.Nonneg, exDiffuse, exMtl])).1

/-- Counterexample to C16 as stated: on the mirror sphere alone, with an environment map
that returns the direction it is sampled in and `bounceLimit = MAX_BOUNCES = 1`, the
primary ray hits, the reflection ray with direction `r = (0,0,1)` misses, and `RayTracer`
returns the colour `(0,1,0)`, where the reference recurrence, which adds
`k_s * environment_sample(r)`, gives `(0,0,1)`. -/
theorem RayTracer_not_reference_recurrence :
    (IntersectRay (exMirrorScene : Scene ℝ).spheres HitInfo.uninit exRay).1 = true ∧
    (RayTracer (exMirrorScene : Scene ℝ) exRay).rgb = ⟨0, 1, 0⟩ ∧
    referenceColour (exMirrorScene : Scene ℝ) (exMirrorScene : Scene ℝ).envMap exRay
      (IntersectRay (exMirrorScene : Scene ℝ).spheres HitInfo.uninit exRay).2
      = ⟨0, 0, 1⟩ ∧
    (RayTracer (exMirrorScene : Scene ℝ) exRay).rgb ≠
      referenceColour (exMirrorScene : Scene ℝ) (exMirrorScene : Scene ℝ).envMap exRay
        (IntersectRay (exMirrorScene : Scene ℝ).spheres HitInfo.uninit exRay).2 := by
  have h1 := @RayTracer_exMirrorScene ℝ _ _
  have h2 := @referenceColour_exMirrorScene ℝ _ _
  have h3 := @IntersectRay_exMirrorScene ℝ _ _
  rw [h3, h1, h2]
  refine ⟨rfl, rfl, rfl, ?_⟩
  intro h
  have hy := congrArg Vec3.y h
  norm_num at hy

/-- C16 (amended): for every ray whose primary intersection is a hit, `RayTracer` returns
alpha `1` and the colour of the reference recurrence in which a missing reflection ray
adds `k_s * environment_sample(r.xzy)`, the environment map sampled at the reflection
direction with its `y` and `z` components exchanged; everything else is as the claim
states it. -/
theorem RayTracer_eq_reference (sc : Scene α) (ray : Ray α)
    (hfound : (IntersectRay sc.spheres HitInfo.uninit ray).1 = true) :
    RayTracer sc ray =
      ⟨referenceColour sc (fun r => sc.envMap ⟨r.x, r.z, r.y⟩) ray
        (IntersectRay sc.spheres HitInfo.uninit ray).2, 1⟩ := by
  have h := finalState_clr_eq_reference sc ray (IntersectRay sc.spheres HitInfo.uninit ray).2
  unfold RayTracer
  simp only [hfound, if_true, h, Vec3.xzy]

/-- Witness of the amended C16 on the mirror sphere alone over the reals. -/
theorem RayTracer_eq_reference_witness :
    RayTracer (exMirrorScene : Scene ℝ) exRay =
      ⟨referenceColour (exMirrorScene : Scene ℝ)
        (fun r => (exMirrorScene : Scene ℝ).envMap ⟨r.x, r.z, r.y⟩) exRay
        (IntersectRay (exMirrorScene : Scene ℝ).spheres HitInfo.uninit exRay).2, 1⟩ :=
  RayTracer_eq_reference (exMirrorScene : Scene ℝ) exRay
    (by rw [IntersectRay_exMirrorScene])

end Claims

end RayTracingSpheres
